import Mathlib

set_option maxRecDepth 8000

/-
  Verification development for the kicad-tools C++ router core
  (src/kicad_tools/router/cpp): a 3-D routing grid (grid.cpp) and a
  weighted A* pathfinder (pathfinder.cpp).

  The embedding is shallow: C++ `float` becomes `ℚ` (exact rationals;
  the single use of `std::numeric_limits<float>::infinity()` becomes
  `⊤ : WithTop ℚ`), `int` becomes `ℤ`, the contiguous cell vector and
  the congestion vector become flat-index functions `ℤ → _`, and the
  unbounded C++ loops (Bresenham, the A* search loop, parent-pointer
  walking) become fuel-based recursion with a fuel that matches the
  C++ loop bound exactly.
-/

namespace Router

/-- Per-coordinate cell record, mirroring `GridCell` in types.hpp. -/
structure GridCell where
  blocked : Bool := false
  net : Int := 0
  usage_count : Int := 0
  history_cost : ℚ := 0
  is_obstacle : Bool := false
  is_zone : Bool := false
  pad_blocked : Bool := false
  original_net : Int := 0
deriving DecidableEq, Repr, Inhabited

/-- Truncating integer division, as C++ `int` division (rounds toward zero). -/
def cppDiv (a b : Int) : Int := Int.tdiv a b

/-- C++ `std::round`: round half away from zero. -/
def cppRound (q : ℚ) : Int := if q < 0 then -(round (-q)) else round q

/-- C++ `std::clamp v lo hi` (for `lo ≤ hi`). -/
def cppClamp (v lo hi : Int) : Int := max lo (min v hi)

/-- The 3-D routing grid, mirroring `Grid3D` in grid.hpp: dimensions,
world-coordinate origin and resolution, the flat cell buffer (layer-major
index `layer·rows·cols + y·cols + x`) and the flat coarse congestion
buffer. Buffers are modelled as total functions from the flat index. -/
structure Grid3D where
  cols : Int
  rows : Int
  layers : Int
  resolution : ℚ
  origin_x : ℚ
  origin_y : ℚ
  cells : Int → GridCell
  congestion : Int → Int

namespace Grid3D

/-- Cells per congestion block side (`congestion_size_ = 8`). -/
def congestion_size : Int := 8

/-- `Grid3D::Grid3D`: fresh grid, all cells default, all congestion counters 0. -/
def new (cols rows layers : Int) (resolution origin_x origin_y : ℚ) : Grid3D :=
  { cols := cols, rows := rows, layers := layers,
    resolution := resolution, origin_x := origin_x, origin_y := origin_y,
    cells := fun _ => {},
    congestion := fun _ => 0 }

/-- `congestion_cols_ = max(1, cols / congestion_size_)`. -/
def congestion_cols (g : Grid3D) : Int := max 1 (cppDiv g.cols congestion_size)

/-- `congestion_rows_ = max(1, rows / congestion_size_)`. -/
def congestion_rows (g : Grid3D) : Int := max 1 (cppDiv g.rows congestion_size)

/-- Flat layer-major cell index `layer·rows·cols + y·cols + x`. -/
def index (g : Grid3D) (x y layer : Int) : Int :=
  layer * g.rows * g.cols + y * g.cols + x

/-- `Grid3D::at` (named `cellAt`: `at` is reserved in Lean). -/
def cellAt (g : Grid3D) (x y layer : Int) : GridCell := g.cells (g.index x y layer)

/-- Writing a cell through the reference returned by `at` (grid.cpp mutators
and the read-write cell access exposed by bindings.cpp). -/
def setCellAt (g : Grid3D) (x y layer : Int) (c : GridCell) : Grid3D :=
  { g with cells := fun i => if i = g.index x y layer then c else g.cells i }

/-- `Grid3D::is_valid`. -/
def is_valid (g : Grid3D) (x y layer : Int) : Bool :=
  0 ≤ x && x < g.cols && 0 ≤ y && y < g.rows && 0 ≤ layer && layer < g.layers

/-- `Grid3D::world_to_grid`: round to the nearest cell, clamped into range. -/
def world_to_grid (g : Grid3D) (x y : ℚ) : Int × Int :=
  (cppClamp (cppRound ((x - g.origin_x) / g.resolution)) 0 (g.cols - 1),
   cppClamp (cppRound ((y - g.origin_y) / g.resolution)) 0 (g.rows - 1))

/-- `Grid3D::grid_to_world`. -/
def grid_to_world (g : Grid3D) (gx gy : Int) : ℚ × ℚ :=
  (g.origin_x + gx * g.resolution, g.origin_y + gy * g.resolution)

/-- Flat congestion-bucket index for a cell, with the clamping both
`get_congestion` and `update_congestion` perform:
`cx = min(x/B, ccols−1)`, `cy = min(y/B, crows−1)`,
`idx = layer·crows·ccols + cy·ccols + cx`. -/
def congIndex (g : Grid3D) (x y layer : Int) : Int :=
  let cx := min (cppDiv x congestion_size) (g.congestion_cols - 1)
  let cy := min (cppDiv y congestion_size) (g.congestion_rows - 1)
  layer * g.congestion_rows * g.congestion_cols + cy * g.congestion_cols + cx

/-- `Grid3D::get_congestion = min(1, count / B²)` for the enclosing
(clamped) block. -/
def get_congestion (g : Grid3D) (x y layer : Int) : ℚ :=
  min 1 ((g.congestion (g.congIndex x y layer) : ℚ) /
    ((congestion_size * congestion_size : Int) : ℚ))

/-- `Grid3D::update_congestion`: add `delta` to the enclosing block. -/
def update_congestion (g : Grid3D) (x y layer delta : Int) : Grid3D :=
  { g with congestion := fun i =>
      if i = g.congIndex x y layer then g.congestion i + delta
      else g.congestion i }

/-- `Grid3D::mark_blocked`. -/
def mark_blocked (g : Grid3D) (x y layer net : Int) (is_obstacle : Bool) : Grid3D :=
  if g.is_valid x y layer then
    g.setCellAt x y layer
      { g.cellAt x y layer with blocked := true, net := net, is_obstacle := is_obstacle }
  else g

/-- `Grid3D::get_negotiated_cost`: `⊤` (float infinity) for invalid or
obstacle cells, else `present_factor · usage_count + history_cost`. -/
def get_negotiated_cost (g : Grid3D) (x y layer : Int) (present_factor : ℚ) :
    WithTop ℚ :=
  if g.is_valid x y layer then
    let c := g.cellAt x y layer
    if c.is_obstacle then ⊤
    else ((present_factor * (c.usage_count : ℚ) + c.history_cost : ℚ) : WithTop ℚ)
  else ⊤

end Grid3D

/-- The offsets `-r, …, r` walked by the clearance loops
(`for d = -r; d <= r; ++d`); empty when `r < 0`. -/
def offsets (r : Int) : List Int :=
  (List.range (2 * r + 1).toNat).map (fun i : Nat => (i : Int) - r)

/-- The `(2r+1)²` square footprint visit list centred on `(gx, gy)` on one
layer, in the C++ visiting order (dy outer, dx inner). -/
def squareVisits (gx gy layer r : Int) : List (Int × Int × Int) :=
  (offsets r).flatMap (fun dy => (offsets r).map (fun dx => (gx + dx, gy + dy, layer)))

/-- One step of Bresenham's line walk as in `Grid3D::mark_segment` /
`unmark_segment`, with fuel bounding the loop (fuel `|dx|+|dy|+1` is
exactly enough to reach `(x2, y2)`). -/
def bresLoop (x2 y2 sx sy dx dy : Int) : Nat → Int → Int → Int → List (Int × Int)
  | 0, _, _, _ => []
  | fuel + 1, x, y, err =>
    (x, y) ::
      (if x = x2 ∧ y = y2 then []
       else
        let e2 := 2 * err
        let err1 := if e2 > -dy then err - dy else err
        let x1 := if e2 > -dy then x + sx else x
        let err2 := if e2 < dx then err1 + dx else err1
        let y1 := if e2 < dx then y + sy else y
        bresLoop x2 y2 sx sy dx dy fuel x1 y1 err2)

/-- The grid points visited by the Bresenham walk from `(x1,y1)` to `(x2,y2)`. -/
def bresenham (x1 y1 x2 y2 : Int) : List (Int × Int) :=
  let dx := |x2 - x1|
  let dy := |y2 - y1|
  let sx : Int := if x1 < x2 then 1 else -1
  let sy : Int := if y1 < y2 then 1 else -1
  bresLoop x2 y2 sx sy dx dy ((dx + dy).toNat + 1) x1 y1 (dx - dy)

/-- All cells touched by `mark_segment`/`unmark_segment`: the inflated
`(2k+1)²` square around every Bresenham point of the centreline. -/
def segVisits (x1 y1 x2 y2 layer clearance_cells : Int) : List (Int × Int × Int) :=
  (bresenham x1 y1 x2 y2).flatMap (fun p => squareVisits p.1 p.2 layer clearance_cells)

/-- All cells touched by `mark_via`/`unmark_via`: the square footprint on
every layer (layer outer loop). -/
def viaVisits (layers x y r : Int) : List (Int × Int × Int) :=
  (offsets' layers).flatMap (fun l => squareVisits x y l r)
where
  /-- Layer indices `0, …, layers−1`. -/
  offsets' (layers : Int) : List Int :=
    (List.range layers.toNat).map (fun i : Nat => (i : Int))

/-- Layer indices `0, …, layers−1` (the C++ `for layer = 0; layer < layers_`). -/
def layerRange (layers : Int) : List Int :=
  (List.range layers.toNat).map (fun i : Nat => (i : Int))

namespace Grid3D

/-- The per-cell update a marking visit performs: a free cell takes the new
net and is blocked (this is the case that also bumps congestion); an
already-blocked cell only has `blocked = true` re-stored. `mark_segment`
writes `net` before bumping congestion and `mark_via` after; the composite
cell effect is this same function in both. -/
def markStep (net : Int) (c : GridCell) : GridCell :=
  if c.blocked then { c with blocked := true }
  else { c with net := net, blocked := true }

/-- One footprint-cell visit of `mark_segment`/`mark_via`: skip invalid
coordinates; bump the covering congestion bucket only on a free→blocked
transition. -/
def applyMarkAt (net : Int) (g : Grid3D) (p : Int × Int × Int) : Grid3D :=
  if g.is_valid p.1 p.2.1 p.2.2 then
    if (g.cellAt p.1 p.2.1 p.2.2).blocked then
      g.setCellAt p.1 p.2.1 p.2.2 (markStep net (g.cellAt p.1 p.2.1 p.2.2))
    else
      (g.update_congestion p.1 p.2.1 p.2.2 1).setCellAt p.1 p.2.1 p.2.2
        (markStep net (g.cellAt p.1 p.2.1 p.2.2))
  else g

/-- The per-cell update a rip-up visit performs (`unmark_segment` /
`unmark_via` body): pad-blocked cells get `net = original_net` and keep
`blocked`; otherwise a cell of the matching net is cleared; other cells
are untouched. -/
def unmarkStep (net : Int) (c : GridCell) : GridCell :=
  if c.pad_blocked then { c with net := c.original_net }
  else if c.net = net then { c with blocked := false, net := 0 }
  else c

/-- One footprint-cell visit of `unmark_segment`/`unmark_via`. -/
def applyUnmarkAt (net : Int) (g : Grid3D) (p : Int × Int × Int) : Grid3D :=
  if g.is_valid p.1 p.2.1 p.2.2 then
    g.setCellAt p.1 p.2.1 p.2.2 (unmarkStep net (g.cellAt p.1 p.2.1 p.2.2))
  else g

/-- `Grid3D::mark_segment`. -/
def mark_segment (g : Grid3D) (x1 y1 x2 y2 layer net clearance_cells : Int) : Grid3D :=
  (segVisits x1 y1 x2 y2 layer clearance_cells).foldl (applyMarkAt net) g

/-- `Grid3D::mark_via`. -/
def mark_via (g : Grid3D) (x y net radius_cells : Int) : Grid3D :=
  (viaVisits g.layers x y radius_cells).foldl (applyMarkAt net) g

/-- `Grid3D::unmark_segment`. -/
def unmark_segment (g : Grid3D) (x1 y1 x2 y2 layer net clearance_cells : Int) : Grid3D :=
  (segVisits x1 y1 x2 y2 layer clearance_cells).foldl (applyUnmarkAt net) g

/-- `Grid3D::unmark_via`. -/
def unmark_via (g : Grid3D) (x y net radius_cells : Int) : Grid3D :=
  (viaVisits g.layers x y radius_cells).foldl (applyUnmarkAt net) g

end Grid3D

end Router

namespace Router

/-- Tunable cost and geometry parameters (`DesignRules` in types.hpp). -/
structure DesignRules where
  trace_width : ℚ := 127 / 1000
  trace_clearance : ℚ := 127 / 1000
  via_drill : ℚ := 3 / 10
  via_diameter : ℚ := 6 / 10
  via_clearance : ℚ := 127 / 1000
  grid_resolution : ℚ := 127 / 1000
  cost_straight : ℚ := 1
  cost_turn : ℚ := 3 / 2
  cost_via : ℚ := 10
  cost_congestion : ℚ := 5
  congestion_threshold : ℚ := 1 / 2
deriving DecidableEq, Repr, Inhabited

/-- Neighbor direction entry (`Neighbor` in types.hpp): dx, dy, dlayer and
cost multiplier. -/
structure Neighbor where
  dx : Int
  dy : Int
  dlayer : Int
  cost_mult : ℚ
deriving DecidableEq, Repr, Inhabited

/-- A* node (`AStarNode` in types.hpp). Scores live in `WithTop ℚ` because
the C++ float arithmetic can propagate the infinity produced by
`get_negotiated_cost`. -/
structure AStarNode where
  f_score : WithTop ℚ
  g_score : WithTop ℚ
  x : Int
  y : Int
  layer : Int
  parent_idx : Int
  via_from_parent : Bool
  dx : Int
  dy : Int
deriving DecidableEq, Repr, Inhabited

/-- Route segment (`Segment` in types.hpp). -/
structure Segment where
  x1 : ℚ
  y1 : ℚ
  x2 : ℚ
  y2 : ℚ
  width : ℚ
  layer : Int
  net : Int
deriving DecidableEq, Repr, Inhabited

/-- Via (`Via` in types.hpp). -/
structure Via where
  x : ℚ
  y : ℚ
  drill : ℚ
  diameter : ℚ
  layer_from : Int
  layer_to : Int
  net : Int
deriving DecidableEq, Repr, Inhabited

/-- Complete route result (`RouteResult` in types.hpp). -/
structure RouteResult where
  segments : List Segment
  vias : List Via
  net : Int
  success : Bool
deriving DecidableEq, Repr, Inhabited

/-- The pathfinder object: grid reference, rules, and the values
precomputed by the constructor. -/
structure Pathfinder where
  grid : Grid3D
  rules : DesignRules
  diagonal_routing : Bool
  neighbors_2d : List Neighbor
  trace_half_width_cells : Int
  via_half_cells : Int
  routable_layers : List Int

namespace Pathfinder

/-- `Pathfinder::Pathfinder`: precompute the 2-D neighbor set (four
orthogonal moves, plus four diagonal moves at multiplier 1.414 when
enabled), the trace clearance radius
`max(1, ceil((trace_width/2 + trace_clearance)/resolution))`, the via
radius `max(1, ceil((via_diameter/2 + via_clearance)/resolution))`, and
the default routable-layer list `0, …, layers−1`. -/
def new (grid : Grid3D) (rules : DesignRules) (diagonal_routing : Bool) : Pathfinder :=
  { grid := grid, rules := rules, diagonal_routing := diagonal_routing,
    neighbors_2d :=
      [⟨1, 0, 0, 1⟩, ⟨-1, 0, 0, 1⟩, ⟨0, 1, 0, 1⟩, ⟨0, -1, 0, 1⟩] ++
        (if diagonal_routing then
          [⟨1, 1, 0, 1414/1000⟩, ⟨-1, 1, 0, 1414/1000⟩,
           ⟨1, -1, 0, 1414/1000⟩, ⟨-1, -1, 0, 1414/1000⟩]
         else []),
    trace_half_width_cells :=
      max 1 ⌈(rules.trace_width / 2 + rules.trace_clearance) / grid.resolution⌉,
    via_half_cells :=
      max 1 ⌈(rules.via_diameter / 2 + rules.via_clearance) / grid.resolution⌉,
    routable_layers := layerRange grid.layers }

/-- `Pathfinder::set_routable_layers`. -/
def set_routable_layers (pf : Pathfinder) (layers : List Int) : Pathfinder :=
  { pf with routable_layers := layers }

/-- The shared per-cell blocking policy of `is_trace_blocked`,
`is_diagonal_blocked` and `is_via_blocked` for an in-range blocked cell:
in standard mode, blocked iff static obstacle or a different net; in
sharing (negotiated) mode, still blocked iff static obstacle, and
additionally iff the cell has no usage and belongs to no net or another
net. -/
def cellBlockPolicy (c : GridCell) (net : Int) (allow_sharing : Bool) : Bool :=
  if c.blocked then
    if allow_sharing && !c.is_obstacle then
      (c.net == 0 && c.usage_count == 0) || (!(c.net == net) && c.usage_count == 0)
    else
      c.is_obstacle || !(c.net == net)
  else false

/-- `Pathfinder::is_trace_blocked`: scan the trace footprint; out-of-bounds
counts as blocked; otherwise apply the shared cell policy. -/
def is_trace_blocked (pf : Pathfinder) (x y layer net : Int) (allow_sharing : Bool) :
    Bool :=
  (offsets pf.trace_half_width_cells).any fun dy =>
    (offsets pf.trace_half_width_cells).any fun dx =>
      let cx := x + dx
      let cy := y + dy
      if pf.grid.is_valid cx cy layer then
        cellBlockPolicy (pf.grid.cellAt cx cy layer) net allow_sharing
      else true

/-- `Pathfinder::is_diagonal_blocked`: for a diagonal move, the two
orthogonal corner cells must pass the same policy. -/
def is_diagonal_blocked (pf : Pathfinder) (x y dx dy layer net : Int)
    (allow_sharing : Bool) : Bool :=
  if dx == 0 || dy == 0 then false
  else
    [(x, y + dy), (x + dx, y)].any fun p =>
      if pf.grid.is_valid p.1 p.2 layer then
        cellBlockPolicy (pf.grid.cellAt p.1 p.2 layer) net allow_sharing
      else true

/-- `Pathfinder::is_via_blocked`: the via footprint must pass the policy on
every layer. -/
def is_via_blocked (pf : Pathfinder) (x y net : Int) (allow_sharing : Bool) : Bool :=
  (layerRange pf.grid.layers).any fun layer =>
    (offsets pf.via_half_cells).any fun dy =>
      (offsets pf.via_half_cells).any fun dx =>
        let cx := x + dx
        let cy := y + dy
        if pf.grid.is_valid cx cy layer then
          cellBlockPolicy (pf.grid.cellAt cx cy layer) net allow_sharing
        else true

/-- `Pathfinder::heuristic`: octile distance when diagonal routing is on,
Manhattan otherwise; plus `cost_via` when the layer differs from the goal
layer; the whole sum scaled by `cost_straight`. -/
def heuristic (pf : Pathfinder) (x y layer goal_x goal_y goal_layer : Int) : ℚ :=
  let dx : ℚ := (|x - goal_x| : Int)
  let dy : ℚ := (|y - goal_y| : Int)
  let h : ℚ :=
    if pf.diagonal_routing then max dx dy + (1414/1000 - 1) * min dx dy
    else dx + dy
  let h2 : ℚ := if layer ≠ goal_layer then h + pf.rules.cost_via else h
  h2 * pf.rules.cost_straight

/-- `Pathfinder::get_congestion_cost`:
`cost_congestion · (1 + 2·(c − threshold))` above the threshold, else 0. -/
def get_congestion_cost (pf : Pathfinder) (x y layer : Int) : ℚ :=
  let congestion := pf.grid.get_congestion x y layer
  if congestion > pf.rules.congestion_threshold then
    pf.rules.cost_congestion * (1 + (congestion - pf.rules.congestion_threshold) * 2)
  else 0

end Pathfinder

/-- Arguments of `Pathfinder::route`. -/
structure RouteArgs where
  start_x : ℚ
  start_y : ℚ
  start_layer : Int
  end_x : ℚ
  end_y : ℚ
  end_layer : Int
  net : Int
  start_layers : List Int := []
  end_layers : List Int := []
  negotiated_mode : Bool := false
  present_cost_factor : ℚ := 0
  weight : ℚ := 1

/-- The valid start layers: the supplied set, or `{start_layer}` if empty. -/
def validStartLayers (args : RouteArgs) : List Int :=
  if args.start_layers.isEmpty then [args.start_layer] else args.start_layers

/-- The valid end layers: the supplied set, or `{end_layer}` if empty. -/
def validEndLayers (args : RouteArgs) : List Int :=
  if args.end_layers.isEmpty then [args.end_layer] else args.end_layers

/-- Pop the element with the lowest f-score (the C++ min-heap pop; the C++
tie order is unspecified, this model takes the first minimal element in
insertion order). Returns the popped node and the remaining list. -/
def popMin : List AStarNode → AStarNode × List AStarNode
  | [] => (default, [])
  | [a] => (a, [])
  | a :: b :: rest =>
    let (m, rest2) := popMin (b :: rest)
    if a.f_score ≤ m.f_score then (a, b :: rest) else (m, a :: rest2)

/-- Lookup in the `g_scores` map, modelled as an association list whose
most recent insertion shadows older ones. -/
def lookupG : List ((Int × Int × Int) × WithTop ℚ) → (Int × Int × Int) →
    Option (WithTop ℚ)
  | [], _ => none
  | (k, v) :: rest, key => if k = key then some v else lookupG rest key

/-- The mutable state of one `route` call: the pathfinder (carrying the
borrowed grid), the open set, closed set, g-score map, closed list, and
the two statistics counters. -/
structure SearchState where
  pf : Pathfinder
  open_set : List AStarNode
  closed_set : List (Int × Int × Int)
  g_scores : List ((Int × Int × Int) × WithTop ℚ)
  closed_list : List AStarNode
  iterations : Int
  nodes_explored : Int

/-- Everything observable after a `route` call: the returned
`RouteResult`, the pathfinder (grid included) after the call, the two
statistics, and — for stating properties of the returned path — the final
closed list, the goal node when one was reached, and the chain of A*
nodes (start → goal) that `reconstruct_path` walked. -/
structure RouteOut where
  result : RouteResult
  pf : Pathfinder
  iterations : Int
  nodes_explored : Int
  closed_list : List AStarNode
  goal_idx : Option Int
  goal_node : Option AStarNode
  path_nodes : List AStarNode

/-- Walk parent indices from `idx` through the closed list (goal → start
order), as the reconstruction loop `while (idx >= 0 && idx < size)` does;
fuel `closed_list.length` suffices because parent indices strictly
decrease. -/
def buildChain (cl : List AStarNode) : Nat → Int → List AStarNode
  | 0, _ => []
  | fuel + 1, idx =>
    if 0 ≤ idx ∧ idx < (cl.length : Int) then
      let node := cl.getD idx.toNat default
      node :: buildChain cl fuel node.parent_idx
    else []

/-- `Pathfinder::reconstruct_path`: walk the parent chain, reverse it,
then convert the node sequence into segments and vias, tracking the
current point and layer; positions closer than 0.01 mm emit no segment. -/
def reconstruct_path (pf : Pathfinder) (cl : List AStarNode) (end_idx : Int)
    (start_x start_y end_x end_y : ℚ) (net : Int) : RouteResult :=
  let chain := (buildChain cl cl.length end_idx).reverse
  let path : List (ℚ × ℚ × Int × Bool) :=
    chain.map fun n =>
      let w := pf.grid.grid_to_world n.x n.y
      (w.1, w.2, n.layer, n.via_from_parent)
  if path.length < 2 then
    { segments := [], vias := [], net := net, success := true }
  else
    let layer0 : Int := ((path.headD (0, 0, 0, false)).2.2.1)
    let fin :=
      path.foldl
        (fun (st : ℚ × ℚ × Int × List Segment × List Via) e =>
          let (cx, cy, clayer, segs, vias) := st
          let (wx, wy, layer, is_via) := e
          if is_via then
            (cx, cy, layer, segs,
             vias ++ [{ x := cx, y := cy, drill := pf.rules.via_drill,
                        diameter := pf.rules.via_diameter,
                        layer_from := clayer, layer_to := layer, net := net }])
          else if |wx - cx| > 1/100 ∨ |wy - cy| > 1/100 then
            (wx, wy, layer,
             segs ++ [{ x1 := cx, y1 := cy, x2 := wx, y2 := wy,
                        width := pf.rules.trace_width, layer := layer, net := net }],
             vias)
          else (cx, cy, clayer, segs, vias))
        (start_x, start_y, layer0, [], [])
    let (cx, cy, clayer, segs, vias) := fin
    let segs2 :=
      if |end_x - cx| > 1/100 ∨ |end_y - cy| > 1/100 then
        segs ++ [{ x1 := cx, y1 := cy, x2 := end_x, y2 := end_y,
                   width := pf.rules.trace_width, layer := clayer, net := net }]
      else segs
    { segments := segs2, vias := vias, net := net, success := true }

/-- The `RouteResult` handed back when the open set empties or the
iteration cap is reached: the initial `result` value of `route`. -/
def failResult (net : Int) : RouteResult :=
  { segments := [], vias := [], net := net, success := false }

/-- Assemble the failure outcome from the final state. -/
def failOut (args : RouteArgs) (st : SearchState) : RouteOut :=
  { result := failResult args.net, pf := st.pf,
    iterations := st.iterations, nodes_explored := st.nodes_explored,
    closed_list := st.closed_list, goal_idx := none, goal_node := none,
    path_nodes := [] }

/-- Assemble the success outcome: reconstruct, then set `success = true`
(as `route` does after `reconstruct_path` returns). -/
def goalOut (args : RouteArgs) (st : SearchState) (cur : AStarNode) (cur_idx : Int) :
    RouteOut :=
  let r := reconstruct_path st.pf st.closed_list cur_idx
    args.start_x args.start_y args.end_x args.end_y args.net
  { result := { r with success := true }, pf := st.pf,
    iterations := st.iterations, nodes_explored := st.nodes_explored,
    closed_list := st.closed_list, goal_idx := some cur_idx, goal_node := some cur,
    path_nodes := (buildChain st.closed_list st.closed_list.length cur_idx).reverse }

/-- The negotiated-mode extra cost term of an expansion: the negotiated
cost of the target cell in negotiated mode, 0 otherwise. -/
def negCost (args : RouteArgs) (pf : Pathfinder) (x y layer : Int) : WithTop ℚ :=
  if args.negotiated_mode then
    pf.grid.get_negotiated_cost x y layer args.present_cost_factor
  else 0

/-- The turn penalty of a 2-D step: `cost_turn` when the parent had a
direction and the step changes it. -/
def turnCost (pf : Pathfinder) (cur : AStarNode) (nb : Neighbor) : ℚ :=
  if (cur.dx ≠ 0 ∨ cur.dy ≠ 0) ∧ (cur.dx ≠ nb.dx ∨ cur.dy ≠ nb.dy) then
    pf.rules.cost_turn
  else 0

/-- The tentative g-score of a 2-D expansion:
`g + cost_mult·cost_straight + turn + congestion + negotiated`. -/
def newG2D (args : RouteArgs) (pf : Pathfinder) (cur : AStarNode) (nb : Neighbor) :
    WithTop ℚ :=
  cur.g_score + ((nb.cost_mult * pf.rules.cost_straight : ℚ) : WithTop ℚ) +
    ((turnCost pf cur nb : ℚ) : WithTop ℚ) +
    ((pf.get_congestion_cost (cur.x + nb.dx) (cur.y + nb.dy) cur.layer : ℚ) :
      WithTop ℚ) +
    negCost args pf (cur.x + nb.dx) (cur.y + nb.dy) cur.layer

/-- The `g_scores` improvement test: push when the key is new or the new g
is strictly better. -/
def betterG (gs : List ((Int × Int × Int) × WithTop ℚ)) (key : Int × Int × Int)
    (g : WithTop ℚ) : Bool :=
  match lookupG gs key with
  | none => true
  | some old => decide (g < old)

/-- The node a 2-D expansion pushes (`f = new_g + weight·h`). -/
def node2D (args : RouteArgs) (pf : Pathfinder) (egx egy : Int) (vel : List Int)
    (cur : AStarNode) (cur_idx : Int) (nb : Neighbor) : AStarNode :=
  { f_score := newG2D args pf cur nb +
      ((args.weight * pf.heuristic (cur.x + nb.dx) (cur.y + nb.dy) cur.layer
        egx egy (vel.headD 0) : ℚ) : WithTop ℚ),
    g_score := newG2D args pf cur nb,
    x := cur.x + nb.dx, y := cur.y + nb.dy, layer := cur.layer,
    parent_idx := cur_idx, via_from_parent := false, dx := nb.dx, dy := nb.dy }

/-- The tail of a 2-D neighbor expansion once the blocking checks have
passed: closed-set check, cost computation, g-score comparison and push. -/
def step2DPush (args : RouteArgs) (egx egy : Int) (vel : List Int)
    (cur : AStarNode) (cur_idx : Int) (st : SearchState) (nb : Neighbor) :
    SearchState :=
  if (cur.x + nb.dx, cur.y + nb.dy, cur.layer) ∈ st.closed_set then st
  else if betterG st.g_scores (cur.x + nb.dx, cur.y + nb.dy, cur.layer)
      (newG2D args st.pf cur nb) then
    { st with
      g_scores := ((cur.x + nb.dx, cur.y + nb.dy, cur.layer),
        newG2D args st.pf cur nb) :: st.g_scores,
      open_set := st.open_set ++ [node2D args st.pf egx egy vel cur cur_idx nb] }
  else st

/-- One 2-D neighbor expansion (step d of the search loop): bounds check,
diagonal corner check, blocked-cell rule (start/end pads of the right net
are enterable; otherwise the trace footprint must be clear), then the
push tail. -/
def step2D (args : RouteArgs) (sgx sgy egx egy : Int) (vsl vel : List Int)
    (cur : AStarNode) (cur_idx : Int) (st : SearchState) (nb : Neighbor) :
    SearchState :=
  let pf := st.pf
  let nx := cur.x + nb.dx
  let ny := cur.y + nb.dy
  let nlayer := cur.layer
  if ¬ (pf.grid.is_valid nx ny nlayer = true) then st
  else if nb.dx ≠ 0 ∧ nb.dy ≠ 0 ∧
      pf.is_diagonal_blocked cur.x cur.y nb.dx nb.dy nlayer args.net
        args.negotiated_mode = true then st
  else
    let cell := pf.grid.cellAt nx ny nlayer
    if cell.blocked = true then
      if (nx = sgx ∧ ny = sgy ∧ nlayer ∈ vsl) ∨ (nx = egx ∧ ny = egy ∧ nlayer ∈ vel) then
        if cell.net ≠ args.net then st
        else step2DPush args egx egy vel cur cur_idx st nb
      else
        if pf.is_trace_blocked nx ny nlayer args.net args.negotiated_mode = true then st
        else step2DPush args egx egy vel cur cur_idx st nb
    else step2DPush args egx egy vel cur cur_idx st nb

/-- The tentative g-score of a via expansion:
`g + cost_via + congestion + negotiated`. -/
def newGVia (args : RouteArgs) (pf : Pathfinder) (cur : AStarNode)
    (new_layer : Int) : WithTop ℚ :=
  cur.g_score + ((pf.rules.cost_via : ℚ) : WithTop ℚ) +
    ((pf.get_congestion_cost cur.x cur.y new_layer : ℚ) : WithTop ℚ) +
    negCost args pf cur.x cur.y new_layer

/-- The node a via expansion pushes. -/
def nodeVia (args : RouteArgs) (pf : Pathfinder) (egx egy : Int) (vel : List Int)
    (cur : AStarNode) (cur_idx : Int) (new_layer : Int) : AStarNode :=
  { f_score := newGVia args pf cur new_layer +
      ((args.weight * pf.heuristic cur.x cur.y new_layer egx egy (vel.headD 0) : ℚ) :
        WithTop ℚ),
    g_score := newGVia args pf cur new_layer,
    x := cur.x, y := cur.y, layer := new_layer, parent_idx := cur_idx,
    via_from_parent := true, dx := cur.dx, dy := cur.dy }

/-- One via expansion (step e of the search loop) to `new_layer`. -/
def stepVia (args : RouteArgs) (egx egy : Int) (vel : List Int)
    (cur : AStarNode) (cur_idx : Int) (st : SearchState) (new_layer : Int) :
    SearchState :=
  if new_layer = cur.layer then st
  else if st.pf.is_via_blocked cur.x cur.y args.net args.negotiated_mode = true then st
  else if (cur.x, cur.y, new_layer) ∈ st.closed_set then st
  else if betterG st.g_scores (cur.x, cur.y, new_layer)
      (newGVia args st.pf cur new_layer) then
    { st with
      g_scores := ((cur.x, cur.y, new_layer),
        newGVia args st.pf cur new_layer) :: st.g_scores,
      open_set := st.open_set ++
        [nodeVia args st.pf egx egy vel cur cur_idx new_layer] }
  else st

/-- The A* search loop (`while (!open_set.empty() && last_iterations_ <
max_iterations)`): the fuel is the remaining iteration budget
`max_iterations − iterations`. Pop the lowest-f node, skip it if already
closed, close it, test the goal, and expand 2-D neighbors and vias. -/
def routeLoop (args : RouteArgs) (sgx sgy egx egy : Int) (vsl vel : List Int) :
    Nat → SearchState → RouteOut
  | 0, st => failOut args st
  | fuel + 1, st =>
    match st.open_set with
    | [] => failOut args st
    | a :: rest =>
      let st1 := { st with iterations := st.iterations + 1 }
      let pm := popMin (a :: rest)
      let cur := pm.1
      let st2 := { st1 with open_set := pm.2 }
      if (cur.x, cur.y, cur.layer) ∈ st2.closed_set then
        routeLoop args sgx sgy egx egy vsl vel fuel st2
      else
        let cur_idx : Int := st2.closed_list.length
        let st3 := { st2 with
          closed_set := (cur.x, cur.y, cur.layer) :: st2.closed_set,
          closed_list := st2.closed_list ++ [cur],
          nodes_explored := st2.nodes_explored + 1 }
        if cur.x = egx ∧ cur.y = egy ∧ cur.layer ∈ vel then
          goalOut args st3 cur cur_idx
        else
          let st4 := st3.pf.neighbors_2d.foldl
            (step2D args sgx sgy egx egy vsl vel cur cur_idx) st3
          let st5 := st4.pf.routable_layers.foldl
            (stepVia args egx egy vel cur cur_idx) st4
          routeLoop args sgx sgy egx egy vsl vel fuel st5

/-- `Pathfinder::route`: convert the endpoints to grid coordinates, seed
the open set with one node per valid start layer, then run the bounded
search loop with iteration cap `cols·rows·4`. -/
def Pathfinder.route (pf : Pathfinder) (args : RouteArgs) : RouteOut :=
  let sg := pf.grid.world_to_grid args.start_x args.start_y
  let eg := pf.grid.world_to_grid args.end_x args.end_y
  let vsl := validStartLayers args
  let vel := validEndLayers args
  let seeds : List AStarNode := vsl.map fun sl =>
    let h := pf.heuristic sg.1 sg.2 sl eg.1 eg.2 (vel.headD 0)
    { f_score := ((h : ℚ) : WithTop ℚ), g_score := (0 : ℚ),
      x := sg.1, y := sg.2, layer := sl, parent_idx := -1,
      via_from_parent := false, dx := 0, dy := 0 }
  let gs0 : List ((Int × Int × Int) × WithTop ℚ) :=
    vsl.map fun sl => ((sg.1, sg.2, sl), ((0 : ℚ) : WithTop ℚ))
  let max_iterations : Int := pf.grid.cols * pf.grid.rows * 4
  routeLoop args sg.1 sg.2 eg.1 eg.2 vsl vel max_iterations.toNat
    { pf := pf, open_set := seeds, closed_set := [], g_scores := gs0,
      closed_list := [], iterations := 0, nodes_explored := 0 }

end Router

namespace Router

namespace Grid3D

theorem is_valid_iff (g : Grid3D) (x y layer : Int) :
    g.is_valid x y layer = true ↔
      0 ≤ x ∧ x < g.cols ∧ 0 ≤ y ∧ y < g.rows ∧ 0 ≤ layer ∧ layer < g.layers := by
  simp [is_valid, Bool.and_eq_true, decide_eq_true_eq, and_assoc]

/-- The layer-major flat index is injective on in-range coordinates. -/
theorem index_inj (g : Grid3D) {x y l x2 y2 l2 : Int}
    (h1 : g.is_valid x y l = true) (h2 : g.is_valid x2 y2 l2 = true)
    (he : g.index x y l = g.index x2 y2 l2) : x = x2 ∧ y = y2 ∧ l = l2 := by
  rw [is_valid_iff] at h1 h2
  obtain ⟨hx0, hxc, hy0, hyr, hl0, hll⟩ := h1
  obtain ⟨hx0', hxc', hy0', hyr', hl0', hll'⟩ := h2
  have hc : 0 < g.cols := lt_of_le_of_lt hx0 hxc
  have hr : 0 < g.rows := lt_of_le_of_lt hy0 hyr
  unfold index at he
  have e1 : x + (y + g.rows * l) * g.cols = x2 + (y2 + g.rows * l2) * g.cols := by
    linear_combination he
  have hx : x = x2 := by
    have m1 : x % g.cols = x := Int.emod_eq_of_lt hx0 hxc
    have m2 : x2 % g.cols = x2 := Int.emod_eq_of_lt hx0' hxc'
    calc x = (x + (y + g.rows * l) * g.cols) % g.cols := by
            rw [Int.add_mul_emod_self, m1]
      _ = (x2 + (y2 + g.rows * l2) * g.cols) % g.cols := by rw [e1]
      _ = x2 := by rw [Int.add_mul_emod_self, m2]
  have e2 : y + g.rows * l = y2 + g.rows * l2 :=
    mul_right_cancel₀ hc.ne' (by linarith)
  have e2' : y + l * g.rows = y2 + l2 * g.rows := by linear_combination e2
  have hy : y = y2 := by
    have m1 : y % g.rows = y := Int.emod_eq_of_lt hy0 hyr
    have m2 : y2 % g.rows = y2 := Int.emod_eq_of_lt hy0' hyr'
    calc y = (y + l * g.rows) % g.rows := by rw [Int.add_mul_emod_self, m1]
      _ = (y2 + l2 * g.rows) % g.rows := by rw [e2']
      _ = y2 := by rw [Int.add_mul_emod_self, m2]
  have hl : l = l2 := by
    have := e2'
    rw [hy] at this
    have h3 : l * g.rows = l2 * g.rows := by linarith
    exact mul_right_cancel₀ hr.ne' h3
  exact ⟨hx, hy, hl⟩

@[simp] theorem setCellAt_cols (g : Grid3D) (x y l : Int) (c : GridCell) :
    (g.setCellAt x y l c).cols = g.cols := rfl

@[simp] theorem setCellAt_rows (g : Grid3D) (x y l : Int) (c : GridCell) :
    (g.setCellAt x y l c).rows = g.rows := rfl

@[simp] theorem setCellAt_layers (g : Grid3D) (x y l : Int) (c : GridCell) :
    (g.setCellAt x y l c).layers = g.layers := rfl

@[simp] theorem setCellAt_congestion (g : Grid3D) (x y l : Int) (c : GridCell) :
    (g.setCellAt x y l c).congestion = g.congestion := rfl

@[simp] theorem setCellAt_is_valid (g : Grid3D) (x y l : Int) (c : GridCell)
    (a b d : Int) : (g.setCellAt x y l c).is_valid a b d = g.is_valid a b d := rfl

@[simp] theorem setCellAt_index (g : Grid3D) (x y l : Int) (c : GridCell)
    (a b d : Int) : (g.setCellAt x y l c).index a b d = g.index a b d := rfl

@[simp] theorem update_congestion_cols (g : Grid3D) (x y l d : Int) :
    (g.update_congestion x y l d).cols = g.cols := rfl

@[simp] theorem update_congestion_rows (g : Grid3D) (x y l d : Int) :
    (g.update_congestion x y l d).rows = g.rows := rfl

@[simp] theorem update_congestion_layers (g : Grid3D) (x y l d : Int) :
    (g.update_congestion x y l d).layers = g.layers := rfl

@[simp] theorem update_congestion_cells (g : Grid3D) (x y l d : Int) :
    (g.update_congestion x y l d).cells = g.cells := rfl

@[simp] theorem update_congestion_cellAt (g : Grid3D) (x y l d : Int) (a b e : Int) :
    (g.update_congestion x y l d).cellAt a b e = g.cellAt a b e := rfl

@[simp] theorem update_congestion_is_valid (g : Grid3D) (x y l d : Int) (a b e : Int) :
    (g.update_congestion x y l d).is_valid a b e = g.is_valid a b e := rfl

@[simp] theorem update_congestion_index (g : Grid3D) (x y l d : Int) (a b e : Int) :
    (g.update_congestion x y l d).index a b e = g.index a b e := rfl

/-- Reading a cell after writing one: the written value if the flat
indices agree, the old value otherwise. -/
theorem cellAt_setCellAt (g : Grid3D) (x y l : Int) (c : GridCell) (a b d : Int) :
    (g.setCellAt x y l c).cellAt a b d =
      if g.index a b d = g.index x y l then c else g.cellAt a b d := rfl

theorem cellAt_setCellAt_self (g : Grid3D) (x y l : Int) (c : GridCell) :
    (g.setCellAt x y l c).cellAt x y l = c := by
  simp [cellAt_setCellAt]

theorem cellAt_setCellAt_of_ne (g : Grid3D) {x y l x2 y2 l2 : Int} (c : GridCell)
    (h1 : g.is_valid x y l = true) (h2 : g.is_valid x2 y2 l2 = true)
    (hne : ¬(x2 = x ∧ y2 = y ∧ l2 = l)) :
    (g.setCellAt x y l c).cellAt x2 y2 l2 = g.cellAt x2 y2 l2 := by
  rw [cellAt_setCellAt]
  exact if_neg (fun he => hne (index_inj g h2 h1 he))

@[simp] theorem applyMarkAt_cols (net : Int) (g : Grid3D) (p : Int × Int × Int) :
    (applyMarkAt net g p).cols = g.cols := by
  unfold applyMarkAt
  split
  · split <;> rfl
  · rfl

@[simp] theorem applyMarkAt_rows (net : Int) (g : Grid3D) (p : Int × Int × Int) :
    (applyMarkAt net g p).rows = g.rows := by
  unfold applyMarkAt
  split
  · split <;> rfl
  · rfl

@[simp] theorem applyMarkAt_layers (net : Int) (g : Grid3D) (p : Int × Int × Int) :
    (applyMarkAt net g p).layers = g.layers := by
  unfold applyMarkAt
  split
  · split <;> rfl
  · rfl

@[simp] theorem applyMarkAt_is_valid (net : Int) (g : Grid3D) (p : Int × Int × Int)
    (a b d : Int) : (applyMarkAt net g p).is_valid a b d = g.is_valid a b d := by
  unfold applyMarkAt
  split
  · split <;> rfl
  · rfl

/-- `markStep` is idempotent: re-visiting a cell changes nothing more. -/
theorem markStep_idem (net : Int) (c : GridCell) :
    markStep net (markStep net c) = markStep net c := by
  cases c
  simp only [markStep]
  split <;> simp

/-- `unmarkStep` is idempotent. -/
theorem unmarkStep_idem (net : Int) (c : GridCell) :
    unmarkStep net (unmarkStep net c) = unmarkStep net c := by
  cases c with
  | mk blocked cnet usage hist obst zone pad orig =>
    by_cases hp : pad
    · simp [unmarkStep, hp]
    · by_cases hn : cnet = net
      · by_cases h0 : (0 : Int) = net <;> simp [unmarkStep, hp, hn, h0]
      · simp [unmarkStep, hp, hn]

/-- Single-visit characterisation of the marking footprint walk, at a
valid coordinate. -/
theorem applyMarkAt_cellAt (net : Int) (g : Grid3D) (p : Int × Int × Int)
    {x y l : Int} (hv : g.is_valid x y l = true) :
    (applyMarkAt net g p).cellAt x y l =
      if p = (x, y, l) then markStep net (g.cellAt x y l) else g.cellAt x y l := by
  obtain ⟨px, py, pl⟩ := p
  unfold applyMarkAt
  by_cases hpv : g.is_valid px py pl = true
  · rw [if_pos hpv]
    by_cases hpe : ((px, py, pl) : Int × Int × Int) = (x, y, l)
    · simp only [Prod.mk.injEq] at hpe
      obtain ⟨rfl, rfl, rfl⟩ := hpe
      simp only [if_pos rfl]
      split <;> simp [cellAt_setCellAt_self]
    · rw [if_neg hpe]
      have hne : ¬(x = px ∧ y = py ∧ l = pl) := by
        intro ⟨a1, a2, a3⟩
        exact hpe (by subst a1; subst a2; subst a3; rfl)
      split
      · exact cellAt_setCellAt_of_ne _ _ hpv hv hne
      · rw [show ((g.update_congestion px py pl 1).setCellAt px py pl
              (markStep net (g.cellAt px py pl))).cellAt x y l =
            (g.update_congestion px py pl 1).cellAt x y l from
          cellAt_setCellAt_of_ne _ _ (by simpa using hpv) (by simpa using hv) hne]
        rfl
  · rw [if_neg hpv]
    have hne : ((px, py, pl) : Int × Int × Int) ≠ (x, y, l) := by
      intro he
      simp only [Prod.mk.injEq] at he
      obtain ⟨rfl, rfl, rfl⟩ := he
      exact hpv hv
    rw [if_neg hne]

@[simp] theorem applyUnmarkAt_cols (net : Int) (g : Grid3D) (p : Int × Int × Int) :
    (applyUnmarkAt net g p).cols = g.cols := by
  unfold applyUnmarkAt; split <;> rfl

@[simp] theorem applyUnmarkAt_rows (net : Int) (g : Grid3D) (p : Int × Int × Int) :
    (applyUnmarkAt net g p).rows = g.rows := by
  unfold applyUnmarkAt; split <;> rfl

@[simp] theorem applyUnmarkAt_layers (net : Int) (g : Grid3D) (p : Int × Int × Int) :
    (applyUnmarkAt net g p).layers = g.layers := by
  unfold applyUnmarkAt; split <;> rfl

@[simp] theorem applyUnmarkAt_is_valid (net : Int) (g : Grid3D) (p : Int × Int × Int)
    (a b d : Int) : (applyUnmarkAt net g p).is_valid a b d = g.is_valid a b d := by
  unfold applyUnmarkAt; split <;> rfl

@[simp] theorem applyUnmarkAt_congestion (net : Int) (g : Grid3D) (p : Int × Int × Int) :
    (applyUnmarkAt net g p).congestion = g.congestion := by
  unfold applyUnmarkAt; split <;> rfl

/-- Single-visit characterisation of the rip-up footprint walk, at a valid
coordinate. -/
theorem applyUnmarkAt_cellAt (net : Int) (g : Grid3D) (p : Int × Int × Int)
    {x y l : Int} (hv : g.is_valid x y l = true) :
    (applyUnmarkAt net g p).cellAt x y l =
      if p = (x, y, l) then unmarkStep net (g.cellAt x y l) else g.cellAt x y l := by
  obtain ⟨px, py, pl⟩ := p
  unfold applyUnmarkAt
  by_cases hpv : g.is_valid px py pl = true
  · rw [if_pos hpv]
    by_cases hpe : ((px, py, pl) : Int × Int × Int) = (x, y, l)
    · simp only [Prod.mk.injEq] at hpe
      obtain ⟨rfl, rfl, rfl⟩ := hpe
      simp [cellAt_setCellAt_self]
    · rw [if_neg hpe]
      have hne : ¬(x = px ∧ y = py ∧ l = pl) := by
        intro ⟨a1, a2, a3⟩
        exact hpe (by subst a1; subst a2; subst a3; rfl)
      exact cellAt_setCellAt_of_ne _ _ hpv hv hne
  · rw [if_neg hpv]
    have hne : ((px, py, pl) : Int × Int × Int) ≠ (x, y, l) := by
      intro he
      simp only [Prod.mk.injEq] at he
      obtain ⟨rfl, rfl, rfl⟩ := he
      exact hpv hv
    rw [if_neg hne]

end Grid3D

end Router

namespace Router

namespace Grid3D

/-- Effect of a whole marking walk on one valid cell: cells in the visit
list undergo `markStep` once (idempotence collapses repeated visits),
other cells are untouched. -/
theorem foldl_applyMarkAt_cellAt (net : Int) (visits : List (Int × Int × Int)) :
    ∀ (g : Grid3D) {x y l : Int}, g.is_valid x y l = true →
      (visits.foldl (applyMarkAt net) g).cellAt x y l =
        if (x, y, l) ∈ visits then markStep net (g.cellAt x y l) else g.cellAt x y l := by
  induction visits with
  | nil => intro g x y l _; simp
  | cons p rest ih =>
    intro g x y l hv
    have hv2 : (applyMarkAt net g p).is_valid x y l = true := by
      rw [applyMarkAt_is_valid]; exact hv
    rw [List.foldl_cons, ih _ hv2, applyMarkAt_cellAt net g p hv]
    by_cases hp : p = ((x, y, l) : Int × Int × Int)
    · by_cases hm : ((x, y, l) : Int × Int × Int) ∈ rest
      · simp [hp, hm, markStep_idem]
      · simp [hp, hm]
    · by_cases hm : ((x, y, l) : Int × Int × Int) ∈ rest
      · simp [hp, hm]
      · have hxp : ((x, y, l) : Int × Int × Int) ≠ p := fun h => hp h.symm
        have hnc : ¬ ((x, y, l) : Int × Int × Int) ∈ p :: rest := by
          simp [List.mem_cons, hm, hxp]
        simp [hp, hm, hnc]

/-- Effect of a whole rip-up walk on one valid cell. -/
theorem foldl_applyUnmarkAt_cellAt (net : Int) (visits : List (Int × Int × Int)) :
    ∀ (g : Grid3D) {x y l : Int}, g.is_valid x y l = true →
      (visits.foldl (applyUnmarkAt net) g).cellAt x y l =
        if (x, y, l) ∈ visits then unmarkStep net (g.cellAt x y l)
        else g.cellAt x y l := by
  induction visits with
  | nil => intro g x y l _; simp
  | cons p rest ih =>
    intro g x y l hv
    have hv2 : (applyUnmarkAt net g p).is_valid x y l = true := by
      rw [applyUnmarkAt_is_valid]; exact hv
    rw [List.foldl_cons, ih _ hv2, applyUnmarkAt_cellAt net g p hv]
    by_cases hp : p = ((x, y, l) : Int × Int × Int)
    · by_cases hm : ((x, y, l) : Int × Int × Int) ∈ rest
      · simp [hp, hm, unmarkStep_idem]
      · simp [hp, hm]
    · by_cases hm : ((x, y, l) : Int × Int × Int) ∈ rest
      · simp [hp, hm]
      · have hxp : ((x, y, l) : Int × Int × Int) ≠ p := fun h => hp h.symm
        have hnc : ¬ ((x, y, l) : Int × Int × Int) ∈ p :: rest := by
          simp [List.mem_cons, hm, hxp]
        simp [hp, hm, hnc]

/-- A rip-up walk never touches the congestion buffer. -/
theorem foldl_applyUnmarkAt_congestion (net : Int) (visits : List (Int × Int × Int)) :
    ∀ g : Grid3D, (visits.foldl (applyUnmarkAt net) g).congestion = g.congestion := by
  induction visits with
  | nil => intro g; rfl
  | cons p rest ih =>
    intro g
    rw [List.foldl_cons, ih, applyUnmarkAt_congestion]

theorem mark_segment_cellAt (g : Grid3D) (x1 y1 x2 y2 layer net k : Int)
    {x y l : Int} (hv : g.is_valid x y l = true) :
    (g.mark_segment x1 y1 x2 y2 layer net k).cellAt x y l =
      if (x, y, l) ∈ segVisits x1 y1 x2 y2 layer k then markStep net (g.cellAt x y l)
      else g.cellAt x y l :=
  foldl_applyMarkAt_cellAt net _ g hv

theorem unmark_segment_cellAt (g : Grid3D) (x1 y1 x2 y2 layer net k : Int)
    {x y l : Int} (hv : g.is_valid x y l = true) :
    (g.unmark_segment x1 y1 x2 y2 layer net k).cellAt x y l =
      if (x, y, l) ∈ segVisits x1 y1 x2 y2 layer k then unmarkStep net (g.cellAt x y l)
      else g.cellAt x y l :=
  foldl_applyUnmarkAt_cellAt net _ g hv

theorem unmark_via_cellAt (g : Grid3D) (vx vy net r : Int)
    {x y l : Int} (hv : g.is_valid x y l = true) :
    (g.unmark_via vx vy net r).cellAt x y l =
      if (x, y, l) ∈ viaVisits g.layers vx vy r then unmarkStep net (g.cellAt x y l)
      else g.cellAt x y l :=
  foldl_applyUnmarkAt_cellAt net _ g hv

end Grid3D

/-- C4. Pad protection: a valid cell with `pad_blocked = true` and
`blocked = true` that is covered by the footprint of an `unmark_segment`
or `unmark_via` call — with any net argument — ends with `blocked = true`
and `net = original_net`. -/
theorem C4_pad_protection :
    (∀ (g : Grid3D) (x1 y1 x2 y2 layer net k x y l : Int),
      g.is_valid x y l = true →
      (g.cellAt x y l).pad_blocked = true →
      (g.cellAt x y l).blocked = true →
      (x, y, l) ∈ segVisits x1 y1 x2 y2 layer k →
      ((g.unmark_segment x1 y1 x2 y2 layer net k).cellAt x y l).blocked = true ∧
      ((g.unmark_segment x1 y1 x2 y2 layer net k).cellAt x y l).net =
        (g.cellAt x y l).original_net) ∧
    (∀ (g : Grid3D) (vx vy net r x y l : Int),
      g.is_valid x y l = true →
      (g.cellAt x y l).pad_blocked = true →
      (g.cellAt x y l).blocked = true →
      (x, y, l) ∈ viaVisits g.layers vx vy r →
      ((g.unmark_via vx vy net r).cellAt x y l).blocked = true ∧
      ((g.unmark_via vx vy net r).cellAt x y l).net =
        (g.cellAt x y l).original_net) := by
  constructor
  · intro g x1 y1 x2 y2 layer net k x y l hv hpad hb hm
    rw [Grid3D.unmark_segment_cellAt g x1 y1 x2 y2 layer net k hv, if_pos hm]
    simp [Grid3D.unmarkStep, hpad, hb]
  · intro g vx vy net r x y l hv hpad hb hm
    rw [Grid3D.unmark_via_cellAt g vx vy net r hv, if_pos hm]
    simp [Grid3D.unmarkStep, hpad, hb]

/-- Pad cell for the C4 witness: `pad_blocked`, `blocked`, owned by net 3
with `original_net = 7`; the cell state is written through the
reference-returning `at` accessor that bindings.cpp exposes read-write. -/
def c4Grid : Grid3D :=
  (Grid3D.new 1 1 1 1 0 0).setCellAt 0 0 0
    { blocked := true, net := 3, pad_blocked := true, original_net := 7 }

/-- Witness for C4 at a concrete pad cell and concrete rip-up calls. -/
theorem C4_pad_protection_witness :
    (((c4Grid.unmark_segment 0 0 0 0 0 9 0).cellAt 0 0 0).blocked = true ∧
      ((c4Grid.unmark_segment 0 0 0 0 0 9 0).cellAt 0 0 0).net =
        (c4Grid.cellAt 0 0 0).original_net) ∧
    (((c4Grid.unmark_via 0 0 9 0).cellAt 0 0 0).blocked = true ∧
      ((c4Grid.unmark_via 0 0 9 0).cellAt 0 0 0).net =
        (c4Grid.cellAt 0 0 0).original_net) :=
  ⟨C4_pad_protection.1 c4Grid 0 0 0 0 0 9 0 0 0 0 (by decide) (by decide) (by decide)
      (by decide),
   C4_pad_protection.2 c4Grid 0 0 9 0 0 0 0 (by decide) (by decide) (by decide)
      (by decide)⟩

/-- C10. Rip-up does not protect static obstacles: a valid footprint cell
with `pad_blocked = false` whose net equals the net argument is cleared
(`blocked = false`, `net = 0`) by `unmark_segment` / `unmark_via` even
when `is_obstacle = true`; with net argument 0 this clears every no-net
static obstacle cell inside the footprint. -/
theorem C10_unmark_clears_static_obstacles :
    (∀ (g : Grid3D) (x1 y1 x2 y2 layer net k x y l : Int),
      g.is_valid x y l = true →
      (g.cellAt x y l).pad_blocked = false →
      (g.cellAt x y l).net = net →
      (x, y, l) ∈ segVisits x1 y1 x2 y2 layer k →
      ((g.unmark_segment x1 y1 x2 y2 layer net k).cellAt x y l).blocked = false ∧
      ((g.unmark_segment x1 y1 x2 y2 layer net k).cellAt x y l).net = 0) ∧
    (∀ (g : Grid3D) (vx vy net r x y l : Int),
      g.is_valid x y l = true →
      (g.cellAt x y l).pad_blocked = false →
      (g.cellAt x y l).net = net →
      (x, y, l) ∈ viaVisits g.layers vx vy r →
      ((g.unmark_via vx vy net r).cellAt x y l).blocked = false ∧
      ((g.unmark_via vx vy net r).cellAt x y l).net = 0) := by
  constructor
  · intro g x1 y1 x2 y2 layer net k x y l hv hpad hnet hm
    rw [Grid3D.unmark_segment_cellAt g x1 y1 x2 y2 layer net k hv, if_pos hm]
    simp [Grid3D.unmarkStep, hpad, hnet]
  · intro g vx vy net r x y l hv hpad hnet hm
    rw [Grid3D.unmark_via_cellAt g vx vy net r hv, if_pos hm]
    simp [Grid3D.unmarkStep, hpad, hnet]

/-- No-net static obstacle cell for the C10 witness. -/
def c10Grid : Grid3D := (Grid3D.new 1 1 1 1 0 0).mark_blocked 0 0 0 0 true

/-- Witness for C10: unmarking with net 0 clears a no-net static obstacle. -/
theorem C10_unmark_clears_static_obstacles_witness :
    (((c10Grid.unmark_segment 0 0 0 0 0 0 0).cellAt 0 0 0).blocked = false ∧
      ((c10Grid.unmark_segment 0 0 0 0 0 0 0).cellAt 0 0 0).net = 0) ∧
    (((c10Grid.unmark_via 0 0 0 0).cellAt 0 0 0).blocked = false ∧
      ((c10Grid.unmark_via 0 0 0 0).cellAt 0 0 0).net = 0) :=
  ⟨C10_unmark_clears_static_obstacles.1 c10Grid 0 0 0 0 0 0 0 0 0 0 (by decide)
      (by decide) (by decide) (by decide),
   C10_unmark_clears_static_obstacles.2 c10Grid 0 0 0 0 0 0 0 (by decide)
      (by decide) (by decide) (by decide)⟩

/-- Pad cell whose current net (2) differs from its `original_net` (5):
rip-up of net 1 rewrites its net to 5, so the cell does not keep its net.
Such a state is reachable through the bindings, which expose the cell
returned by `at` read-write. -/
def c3Grid : Grid3D :=
  (Grid3D.new 1 1 1 1 0 0).setCellAt 0 0 0
    { blocked := true, net := 2, pad_blocked := true, original_net := 5 }

/-- C3, counterexample. The cell `(0,0,0)` is blocked by net 2 ≠ 1 and lies
in the inflated footprint, yet `mark_segment` followed by `unmark_segment`
with net 1 changes its net from 2 to 5 (= `original_net`): the claim that
cells blocked by a different net keep their `blocked` flag *and net*
fails on `pad_blocked` cells. -/
theorem C3_rip_up_counterexample :
    (c3Grid.cellAt 0 0 0).blocked = true ∧
    (c3Grid.cellAt 0 0 0).net = 2 ∧
    (2 : Int) ≠ 1 ∧
    ((0, 0, 0) : Int × Int × Int) ∈ segVisits 0 0 0 0 0 0 ∧
    (((c3Grid.mark_segment 0 0 0 0 0 1 0).unmark_segment 0 0 0 0 0 1 0).cellAt
        0 0 0).net = 5 ∧
    (((c3Grid.mark_segment 0 0 0 0 0 1 0).unmark_segment 0 0 0 0 0 1 0).cellAt
        0 0 0).net ≠ (c3Grid.cellAt 0 0 0).net := by
  decide

/-- C3, amended. `mark_segment(S,L,N,k)` then `unmark_segment(S,L,N,k)`:
(i) restores every footprint cell that was unblocked before and not
`pad_blocked` to `blocked = false`, `net = 0`; (ii) leaves every
non-`pad_blocked` cell that was blocked by a different net with its
blocked flag and net unchanged; (iii) a `pad_blocked` (hence blocked)
footprint cell keeps `blocked = true` and gets `net = original_net`,
which may differ from the net it had before. -/
theorem C3_rip_up_amended :
    ∀ (g : Grid3D) (x1 y1 x2 y2 layer net k x y l : Int),
      g.is_valid x y l = true →
      (((x, y, l) ∈ segVisits x1 y1 x2 y2 layer k →
        (g.cellAt x y l).blocked = false →
        (g.cellAt x y l).pad_blocked = false →
        (((g.mark_segment x1 y1 x2 y2 layer net k).unmark_segment
            x1 y1 x2 y2 layer net k).cellAt x y l).blocked = false ∧
        (((g.mark_segment x1 y1 x2 y2 layer net k).unmark_segment
            x1 y1 x2 y2 layer net k).cellAt x y l).net = 0) ∧
      ((g.cellAt x y l).blocked = true →
        (g.cellAt x y l).net ≠ net →
        (g.cellAt x y l).pad_blocked = false →
        (((g.mark_segment x1 y1 x2 y2 layer net k).unmark_segment
            x1 y1 x2 y2 layer net k).cellAt x y l).blocked = true ∧
        (((g.mark_segment x1 y1 x2 y2 layer net k).unmark_segment
            x1 y1 x2 y2 layer net k).cellAt x y l).net = (g.cellAt x y l).net) ∧
      ((x, y, l) ∈ segVisits x1 y1 x2 y2 layer k →
        (g.cellAt x y l).pad_blocked = true →
        (g.cellAt x y l).blocked = true →
        (((g.mark_segment x1 y1 x2 y2 layer net k).unmark_segment
            x1 y1 x2 y2 layer net k).cellAt x y l).blocked = true ∧
        (((g.mark_segment x1 y1 x2 y2 layer net k).unmark_segment
            x1 y1 x2 y2 layer net k).cellAt x y l).net =
          (g.cellAt x y l).original_net)) := by
  intro g x1 y1 x2 y2 layer net k x y l hv
  have hv1 : (g.mark_segment x1 y1 x2 y2 layer net k).is_valid x y l = true := by
    unfold Grid3D.mark_segment
    induction segVisits x1 y1 x2 y2 layer k generalizing g with
    | nil => exact hv
    | cons p rest ih =>
      rw [List.foldl_cons]
      exact ih _ (by rw [Grid3D.applyMarkAt_is_valid]; exact hv)
  have hm1 := Grid3D.mark_segment_cellAt g x1 y1 x2 y2 layer net k hv
  have hm2 := Grid3D.unmark_segment_cellAt (g.mark_segment x1 y1 x2 y2 layer net k)
    x1 y1 x2 y2 layer net k hv1
  refine ⟨?_, ?_, ?_⟩
  · intro hmem hfree hpad
    rw [hm2, if_pos hmem, hm1, if_pos hmem]
    simp [Grid3D.markStep, Grid3D.unmarkStep, hfree, hpad]
  · intro hb hnet hpad
    by_cases hmem : ((x, y, l) : Int × Int × Int) ∈ segVisits x1 y1 x2 y2 layer k
    · rw [hm2, if_pos hmem, hm1, if_pos hmem]
      simp [Grid3D.markStep, Grid3D.unmarkStep, hb, hnet, hpad]
    · rw [hm2, if_neg hmem, hm1, if_neg hmem]
      exact ⟨hb, rfl⟩
  · intro hmem hpad hb
    rw [hm2, if_pos hmem, hm1, if_pos hmem]
    simp [Grid3D.markStep, Grid3D.unmarkStep, hb, hpad]

/-- Witness for the amended C3 at concrete inputs: a fresh free cell is
marked and then fully cleared. -/
theorem C3_rip_up_amended_witness :
    ((((Grid3D.new 1 1 1 1 0 0).mark_segment 0 0 0 0 0 1 0).unmark_segment
        0 0 0 0 0 1 0).cellAt 0 0 0).blocked = false ∧
    ((((Grid3D.new 1 1 1 1 0 0).mark_segment 0 0 0 0 0 1 0).unmark_segment
        0 0 0 0 0 1 0).cellAt 0 0 0).net = 0 :=
  (C3_rip_up_amended (Grid3D.new 1 1 1 1 0 0) 0 0 0 0 0 1 0 0 0 0 (by decide)).1
    (by decide) (by decide) (by decide)

/-- The congestion formula exactly as the claim words it ("cx = x/B,
cy = y/B" with no clamping), stated over the same flat congestion buffer. -/
def get_congestion_spec (g : Grid3D) (x y layer : Int) : ℚ :=
  min 1 ((g.congestion (layer * g.congestion_rows * g.congestion_cols +
    cppDiv y Grid3D.congestion_size * g.congestion_cols +
    cppDiv x Grid3D.congestion_size) : ℚ) / 64)

/-- Grid for the C7 counterexample: 12×12×2, one unit of congestion added
at cell (0,0,0). With `cols = 12`, the per-layer congestion grid is 1×1,
so cells with `x ≥ 8` need the clamp `cx = min(x/8, ccols−1)`. -/
def c7Grid : Grid3D := (Grid3D.new 12 12 2 1 0 0).update_congestion 0 0 0 1

/-- C7, counterexample. At the valid cell (8,0,0) of `c7Grid`, the code
(grid.cpp clamps `cx = min(x/8, ccols−1)`) returns 1/64, but the claim's
unclamped `cx = x/8 = 1` lands on flat index 1, which is layer 1's only
block (counter 0): the claimed equality fails. -/
theorem C7_congestion_counterexample :
    c7Grid.is_valid 8 0 0 = true ∧
    c7Grid.congestion_cols = 1 ∧
    c7Grid.congestion_rows = 1 ∧
    c7Grid.get_congestion 8 0 0 = 1 / 64 ∧
    get_congestion_spec c7Grid 8 0 0 = 0 ∧
    c7Grid.get_congestion 8 0 0 ≠ get_congestion_spec c7Grid 8 0 0 := by
  with_unfolding_all decide

/-- C7, amended. For every cell, `get_congestion(x,y,layer)` equals
`min(1, count/B²)` with `B = 8`, where `count` is the counter at flat
index `layer·crows·ccols + cy·ccols + cx` for the *clamped* block
coordinates `cx = min(x/B, ccols−1)`, `cy = min(y/B, crows−1)`, and the
per-layer dimensions are `ccols = max(1, cols/B)`, `crows = max(1, rows/B)`. -/
theorem C7_congestion_amended :
    ∀ (g : Grid3D) (x y layer : Int),
      g.congestion_cols = max 1 (cppDiv g.cols 8) ∧
      g.congestion_rows = max 1 (cppDiv g.rows 8) ∧
      g.get_congestion x y layer =
        min 1 ((g.congestion (layer * g.congestion_rows * g.congestion_cols +
          min (cppDiv y 8) (g.congestion_rows - 1) * g.congestion_cols +
          min (cppDiv x 8) (g.congestion_cols - 1)) : ℚ) / 64) := by
  intro g x y layer
  refine ⟨rfl, rfl, ?_⟩
  show min 1 _ = min 1 _
  norm_num [Grid3D.congIndex, Grid3D.congestion_size]

end Router

namespace Router

namespace Grid3D

@[simp] theorem applyMarkAt_congestion_cols (net : Int) (g : Grid3D)
    (p : Int × Int × Int) :
    (applyMarkAt net g p).congestion_cols = g.congestion_cols := by
  unfold congestion_cols; rw [applyMarkAt_cols]

@[simp] theorem applyMarkAt_congestion_rows (net : Int) (g : Grid3D)
    (p : Int × Int × Int) :
    (applyMarkAt net g p).congestion_rows = g.congestion_rows := by
  unfold congestion_rows; rw [applyMarkAt_rows]

@[simp] theorem applyMarkAt_congIndex (net : Int) (g : Grid3D) (p : Int × Int × Int)
    (a b d : Int) : (applyMarkAt net g p).congIndex a b d = g.congIndex a b d := by
  unfold congIndex
  rw [applyMarkAt_congestion_cols, applyMarkAt_congestion_rows]

/-- A marked cell is blocked. -/
theorem markStep_blocked (net : Int) (c : GridCell) :
    (markStep net c).blocked = true := by
  unfold markStep; split <;> rfl

/-- Marking an already-blocked cell is a no-op. -/
theorem markStep_of_blocked (net : Int) {c : GridCell} (h : c.blocked = true) :
    markStep net c = c := by
  cases c; simp_all [markStep]

/-- Triple-shaped restatement of `applyMarkAt_cellAt`. -/
theorem applyMarkAt_cellAt_tr (net : Int) (g : Grid3D) (p t : Int × Int × Int)
    (hv : g.is_valid t.1 t.2.1 t.2.2 = true) :
    (applyMarkAt net g p).cellAt t.1 t.2.1 t.2.2 =
      if p = t then markStep net (g.cellAt t.1 t.2.1 t.2.2)
      else g.cellAt t.1 t.2.1 t.2.2 := by
  obtain ⟨x, y, l⟩ := t
  exact applyMarkAt_cellAt net g p hv

/-- Effect of one marking visit on one congestion counter: +1 exactly when
the visit is in range, hits a free cell, and the counter is that cell's
block. -/
theorem applyMarkAt_congestion_eq (net : Int) (g : Grid3D) (p : Int × Int × Int)
    (b : Int) :
    (applyMarkAt net g p).congestion b =
      g.congestion b +
        (if g.is_valid p.1 p.2.1 p.2.2 = true ∧
            (g.cellAt p.1 p.2.1 p.2.2).blocked = false ∧
            b = g.congIndex p.1 p.2.1 p.2.2 then 1 else 0) := by
  unfold applyMarkAt
  by_cases hv : g.is_valid p.1 p.2.1 p.2.2 = true
  · rw [if_pos hv]
    by_cases hb : (g.cellAt p.1 p.2.1 p.2.2).blocked = true
    · rw [if_pos hb]
      have hno : ¬(g.is_valid p.1 p.2.1 p.2.2 = true ∧
          (g.cellAt p.1 p.2.1 p.2.2).blocked = false ∧
          b = g.congIndex p.1 p.2.1 p.2.2) := by
        intro ⟨_, h2, _⟩
        rw [hb] at h2
        exact absurd h2 (by simp)
      rw [if_neg hno, setCellAt_congestion]
      ring
    · rw [if_neg hb]
      have hbf : (g.cellAt p.1 p.2.1 p.2.2).blocked = false := by
        revert hb; cases (g.cellAt p.1 p.2.1 p.2.2).blocked <;> simp
      rw [setCellAt_congestion]
      unfold update_congestion
      by_cases hidx : b = g.congIndex p.1 p.2.1 p.2.2
      · rw [if_pos ⟨hv, hbf, hidx⟩]
        simp [hidx]
      · rw [if_neg (by intro h; exact hidx h.2.2)]
        have hidx2 : ¬g.congIndex p.1 p.2.1 p.2.2 = b := by
          intro h; exact hidx h.symm
        simp [hidx2, hidx]
  · rw [if_neg hv, if_neg (by intro h; exact hv h.1)]
    ring

/-- The in-range coordinate triples of a grid, as a finite set. -/
def validTriples (g : Grid3D) : Finset (Int × Int × Int) :=
  Finset.Icc 0 (g.cols - 1) ×ˢ (Finset.Icc 0 (g.rows - 1) ×ˢ Finset.Icc 0 (g.layers - 1))

theorem mem_validTriples (g : Grid3D) (t : Int × Int × Int) :
    t ∈ g.validTriples ↔ g.is_valid t.1 t.2.1 t.2.2 = true := by
  obtain ⟨x, y, l⟩ := t
  simp only [validTriples, Finset.mem_product, Finset.mem_Icc, is_valid_iff]
  omega

@[simp] theorem applyMarkAt_validTriples (net : Int) (g : Grid3D)
    (p : Int × Int × Int) : (applyMarkAt net g p).validTriples = g.validTriples := by
  unfold validTriples
  rw [applyMarkAt_cols, applyMarkAt_rows, applyMarkAt_layers]

/-- The cells of `g0` that are free in `g0`, blocked in `gF`, and belong to
congestion block `b` (blocks taken with the clamped indexing the code
uses). -/
def newlyBlocked (g0 gF : Grid3D) (b : Int) : Finset (Int × Int × Int) :=
  g0.validTriples.filter (fun t =>
    g0.congIndex t.1 t.2.1 t.2.2 = b ∧
    (g0.cellAt t.1 t.2.1 t.2.2).blocked = false ∧
    (gF.cellAt t.1 t.2.1 t.2.2).blocked = true)

/-- Blocked cells stay blocked along a marking walk. -/
theorem foldl_applyMarkAt_blocked_mono (net : Int) (visits : List (Int × Int × Int))
    (g : Grid3D) {x y l : Int} (hv : g.is_valid x y l = true)
    (hb : (g.cellAt x y l).blocked = true) :
    ((visits.foldl (applyMarkAt net) g).cellAt x y l).blocked = true := by
  rw [foldl_applyMarkAt_cellAt net visits g hv]
  split
  · exact markStep_blocked net _
  · exact hb

/-- When a visit does not block a new cell, the grid's cells are unchanged
at every valid triple. -/
theorem applyMarkAt_cells_frame (net : Int) (g : Grid3D) (p : Int × Int × Int)
    (hstep : ¬(g.is_valid p.1 p.2.1 p.2.2 = true ∧
      (g.cellAt p.1 p.2.1 p.2.2).blocked = false))
    (t : Int × Int × Int) (htv : g.is_valid t.1 t.2.1 t.2.2 = true) :
    (applyMarkAt net g p).cellAt t.1 t.2.1 t.2.2 = g.cellAt t.1 t.2.1 t.2.2 := by
  rw [applyMarkAt_cellAt_tr net g p t htv]
  by_cases hpt : p = t
  · subst hpt
    rw [if_pos rfl]
    refine markStep_of_blocked net ?_
    by_contra hbl
    exact hstep ⟨htv, by revert hbl; cases (g.cellAt p.1 p.2.1 p.2.2).blocked <;> simp⟩
  · rw [if_neg hpt]

/-- If two grids with the same dimensions and congestion blocks agree on
every valid cell, they generate the same newly-blocked sets. -/
theorem newlyBlocked_congr (g g1 gF : Grid3D) (b : Int)
    (hdims : g.validTriples = g1.validTriples)
    (hidx : ∀ t : Int × Int × Int, g.congIndex t.1 t.2.1 t.2.2 =
      g1.congIndex t.1 t.2.1 t.2.2)
    (hcells : ∀ t : Int × Int × Int, t ∈ g.validTriples →
      (g.cellAt t.1 t.2.1 t.2.2).blocked = (g1.cellAt t.1 t.2.1 t.2.2).blocked) :
    newlyBlocked g gF b = newlyBlocked g1 gF b := by
  unfold newlyBlocked
  rw [← hdims]
  refine Finset.filter_congr ?_
  intro t ht
  rw [hidx t, hcells t ht]

/-- The congestion accounting of a whole marking walk: every counter grows
by exactly the number of its cells that went from free to blocked. -/
theorem foldl_applyMarkAt_congestion (net : Int) (visits : List (Int × Int × Int)) :
    ∀ (g : Grid3D) (b : Int),
      (visits.foldl (applyMarkAt net) g).congestion b =
        g.congestion b +
          ((newlyBlocked g (visits.foldl (applyMarkAt net) g) b).card : Int) := by
  induction visits with
  | nil =>
    intro g b
    have he : newlyBlocked g g b = ∅ := by
      ext t
      simp only [newlyBlocked, Finset.mem_filter, Finset.not_mem_empty, iff_false]
      intro ⟨_, _, h2, h3⟩
      rw [h2] at h3
      exact absurd h3 (by simp)
    simp [he]
  | cons p rest ih =>
    intro g b
    rw [List.foldl_cons, ih (applyMarkAt net g p) b, applyMarkAt_congestion_eq net g p b]
    by_cases hstep : g.is_valid p.1 p.2.1 p.2.2 = true ∧
        (g.cellAt p.1 p.2.1 p.2.2).blocked = false
    · obtain ⟨hpv, hpb⟩ := hstep
      have hg1p : ((applyMarkAt net g p).cellAt p.1 p.2.1 p.2.2).blocked = true := by
        rw [applyMarkAt_cellAt_tr net g p p hpv, if_pos rfl]
        exact markStep_blocked net _
      have hFp : ((rest.foldl (applyMarkAt net) (applyMarkAt net g p)).cellAt
          p.1 p.2.1 p.2.2).blocked = true :=
        foldl_applyMarkAt_blocked_mono net rest _
          (by rw [applyMarkAt_is_valid]; exact hpv) hg1p
      by_cases hidx : b = g.congIndex p.1 p.2.1 p.2.2
      · have hsets : newlyBlocked g (rest.foldl (applyMarkAt net) (applyMarkAt net g p)) b
            = insert p (newlyBlocked (applyMarkAt net g p)
                (rest.foldl (applyMarkAt net) (applyMarkAt net g p)) b) := by
          ext t
          simp only [newlyBlocked, Finset.mem_filter, Finset.mem_insert,
            applyMarkAt_validTriples, applyMarkAt_congIndex, mem_validTriples]
          constructor
          · intro ⟨htv, hi, hfree, hbl⟩
            by_cases htp : t = p
            · exact Or.inl htp
            · refine Or.inr ⟨htv, hi, ?_, hbl⟩
              rw [applyMarkAt_cellAt_tr net g p t htv,
                if_neg (fun h => htp h.symm), hfree]
          · intro h
            rcases h with rfl | ⟨htv, hi, hfree, hbl⟩
            · exact ⟨hpv, hidx.symm, hpb, hFp⟩
            · refine ⟨htv, hi, ?_, hbl⟩
              rw [applyMarkAt_cellAt_tr net g p t htv] at hfree
              by_cases htp : p = t
              · subst htp
                rw [if_pos rfl, markStep_blocked] at hfree
                exact absurd hfree (by simp)
              · rwa [if_neg htp] at hfree
        have hnotmem : p ∉ newlyBlocked (applyMarkAt net g p)
            (rest.foldl (applyMarkAt net) (applyMarkAt net g p)) b := by
          simp only [newlyBlocked, Finset.mem_filter]
          intro ⟨_, _, hfree, _⟩
          rw [hg1p] at hfree
          exact absurd hfree (by simp)
        rw [if_pos ⟨hpv, hpb, hidx⟩, hsets, Finset.card_insert_of_not_mem hnotmem]
        push_cast
        ring
      · have hsets2 : newlyBlocked g (rest.foldl (applyMarkAt net) (applyMarkAt net g p)) b
            = newlyBlocked (applyMarkAt net g p)
                (rest.foldl (applyMarkAt net) (applyMarkAt net g p)) b := by
          ext t
          simp only [newlyBlocked, Finset.mem_filter, applyMarkAt_validTriples,
            applyMarkAt_congIndex, mem_validTriples]
          constructor
          · intro ⟨htv, hi, hfree, hbl⟩
            refine ⟨htv, hi, ?_, hbl⟩
            have htp : p ≠ t := by
              intro h
              subst h
              exact hidx (hi.symm)
            rw [applyMarkAt_cellAt_tr net g p t htv, if_neg htp, hfree]
          · intro ⟨htv, hi, hfree, hbl⟩
            refine ⟨htv, hi, ?_, hbl⟩
            have htp : p ≠ t := by
              intro h
              subst h
              exact hidx (hi.symm)
            rwa [applyMarkAt_cellAt_tr net g p t htv, if_neg htp] at hfree
        rw [if_neg (by intro h; exact hidx h.2.2), hsets2]
        ring
    · have hind : ¬(g.is_valid p.1 p.2.1 p.2.2 = true ∧
          (g.cellAt p.1 p.2.1 p.2.2).blocked = false ∧
          b = g.congIndex p.1 p.2.1 p.2.2) := fun ⟨h1, h2, _⟩ => hstep ⟨h1, h2⟩
      rw [if_neg hind]
      have hsets3 : newlyBlocked g (rest.foldl (applyMarkAt net) (applyMarkAt net g p)) b
          = newlyBlocked (applyMarkAt net g p)
              (rest.foldl (applyMarkAt net) (applyMarkAt net g p)) b := by
        refine newlyBlocked_congr g (applyMarkAt net g p) _ b
          (applyMarkAt_validTriples net g p).symm
          (fun t => (applyMarkAt_congIndex net g p t.1 t.2.1 t.2.2).symm) ?_
        intro t ht
        rw [applyMarkAt_cells_frame net g p hstep t ((mem_validTriples g t).mp ht)]
      rw [hsets3]
      ring

end Grid3D

/-- C8. Congestion accounting: `mark_segment` and `mark_via` increase each
congestion block counter by exactly the number of that block's cells that
transition from unblocked to blocked (already-blocked cells cause no
increment), and `unmark_segment` / `unmark_via` leave every congestion
counter unchanged. -/
theorem C8_congestion_accounting :
    (∀ (g : Grid3D) (x1 y1 x2 y2 layer net k b : Int),
      (g.mark_segment x1 y1 x2 y2 layer net k).congestion b =
        g.congestion b +
          ((Grid3D.newlyBlocked g (g.mark_segment x1 y1 x2 y2 layer net k) b).card : Int)) ∧
    (∀ (g : Grid3D) (x y net r b : Int),
      (g.mark_via x y net r).congestion b =
        g.congestion b +
          ((Grid3D.newlyBlocked g (g.mark_via x y net r) b).card : Int)) ∧
    (∀ (g : Grid3D) (x1 y1 x2 y2 layer net k : Int),
      (g.unmark_segment x1 y1 x2 y2 layer net k).congestion = g.congestion) ∧
    (∀ (g : Grid3D) (x y net r : Int),
      (g.unmark_via x y net r).congestion = g.congestion) :=
  ⟨fun g x1 y1 x2 y2 layer net k b =>
      Grid3D.foldl_applyMarkAt_congestion net (segVisits x1 y1 x2 y2 layer k) g b,
   fun g x y net r b =>
      Grid3D.foldl_applyMarkAt_congestion net (viaVisits g.layers x y r) g b,
   fun g x1 y1 x2 y2 layer net k =>
      Grid3D.foldl_applyUnmarkAt_congestion net (segVisits x1 y1 x2 y2 layer k) g,
   fun g x y net r =>
      Grid3D.foldl_applyUnmarkAt_congestion net (viaVisits g.layers x y r) g⟩

end Router

namespace Router

@[simp] theorem step2DPush_pf (args : RouteArgs) (egx egy : Int) (vel : List Int)
    (cur : AStarNode) (i : Int) (st : SearchState) (nb : Neighbor) :
    (step2DPush args egx egy vel cur i st nb).pf = st.pf := by
  unfold step2DPush
  repeat' split
  all_goals rfl

@[simp] theorem step2DPush_iterations (args : RouteArgs) (egx egy : Int)
    (vel : List Int) (cur : AStarNode) (i : Int) (st : SearchState) (nb : Neighbor) :
    (step2DPush args egx egy vel cur i st nb).iterations = st.iterations := by
  unfold step2DPush
  repeat' split
  all_goals rfl

@[simp] theorem step2DPush_closed_list (args : RouteArgs) (egx egy : Int)
    (vel : List Int) (cur : AStarNode) (i : Int) (st : SearchState) (nb : Neighbor) :
    (step2DPush args egx egy vel cur i st nb).closed_list = st.closed_list := by
  unfold step2DPush
  repeat' split
  all_goals rfl

@[simp] theorem step2DPush_closed_set (args : RouteArgs) (egx egy : Int)
    (vel : List Int) (cur : AStarNode) (i : Int) (st : SearchState) (nb : Neighbor) :
    (step2DPush args egx egy vel cur i st nb).closed_set = st.closed_set := by
  unfold step2DPush
  repeat' split
  all_goals rfl

@[simp] theorem step2DPush_nodes_explored (args : RouteArgs) (egx egy : Int)
    (vel : List Int) (cur : AStarNode) (i : Int) (st : SearchState) (nb : Neighbor) :
    (step2DPush args egx egy vel cur i st nb).nodes_explored = st.nodes_explored := by
  unfold step2DPush
  repeat' split
  all_goals rfl

@[simp] theorem step2D_pf (args : RouteArgs) (sgx sgy egx egy : Int)
    (vsl vel : List Int) (cur : AStarNode) (i : Int) (st : SearchState)
    (nb : Neighbor) :
    (step2D args sgx sgy egx egy vsl vel cur i st nb).pf = st.pf := by
  unfold step2D
  dsimp only
  repeat' split
  all_goals simp

@[simp] theorem step2D_iterations (args : RouteArgs) (sgx sgy egx egy : Int)
    (vsl vel : List Int) (cur : AStarNode) (i : Int) (st : SearchState)
    (nb : Neighbor) :
    (step2D args sgx sgy egx egy vsl vel cur i st nb).iterations = st.iterations := by
  unfold step2D
  dsimp only
  repeat' split
  all_goals simp

@[simp] theorem step2D_closed_list (args : RouteArgs) (sgx sgy egx egy : Int)
    (vsl vel : List Int) (cur : AStarNode) (i : Int) (st : SearchState)
    (nb : Neighbor) :
    (step2D args sgx sgy egx egy vsl vel cur i st nb).closed_list = st.closed_list := by
  unfold step2D
  dsimp only
  repeat' split
  all_goals simp

@[simp] theorem step2D_closed_set (args : RouteArgs) (sgx sgy egx egy : Int)
    (vsl vel : List Int) (cur : AStarNode) (i : Int) (st : SearchState)
    (nb : Neighbor) :
    (step2D args sgx sgy egx egy vsl vel cur i st nb).closed_set = st.closed_set := by
  unfold step2D
  dsimp only
  repeat' split
  all_goals simp

@[simp] theorem step2D_nodes_explored (args : RouteArgs) (sgx sgy egx egy : Int)
    (vsl vel : List Int) (cur : AStarNode) (i : Int) (st : SearchState)
    (nb : Neighbor) :
    (step2D args sgx sgy egx egy vsl vel cur i st nb).nodes_explored =
      st.nodes_explored := by
  unfold step2D
  dsimp only
  repeat' split
  all_goals simp

@[simp] theorem stepVia_pf (args : RouteArgs) (egx egy : Int) (vel : List Int)
    (cur : AStarNode) (i : Int) (st : SearchState) (nl : Int) :
    (stepVia args egx egy vel cur i st nl).pf = st.pf := by
  unfold stepVia
  repeat' split
  all_goals rfl

@[simp] theorem stepVia_iterations (args : RouteArgs) (egx egy : Int) (vel : List Int)
    (cur : AStarNode) (i : Int) (st : SearchState) (nl : Int) :
    (stepVia args egx egy vel cur i st nl).iterations = st.iterations := by
  unfold stepVia
  repeat' split
  all_goals rfl

@[simp] theorem stepVia_closed_list (args : RouteArgs) (egx egy : Int) (vel : List Int)
    (cur : AStarNode) (i : Int) (st : SearchState) (nl : Int) :
    (stepVia args egx egy vel cur i st nl).closed_list = st.closed_list := by
  unfold stepVia
  repeat' split
  all_goals rfl

@[simp] theorem stepVia_closed_set (args : RouteArgs) (egx egy : Int) (vel : List Int)
    (cur : AStarNode) (i : Int) (st : SearchState) (nl : Int) :
    (stepVia args egx egy vel cur i st nl).closed_set = st.closed_set := by
  unfold stepVia
  repeat' split
  all_goals rfl

@[simp] theorem stepVia_nodes_explored (args : RouteArgs) (egx egy : Int)
    (vel : List Int) (cur : AStarNode) (i : Int) (st : SearchState) (nl : Int) :
    (stepVia args egx egy vel cur i st nl).nodes_explored = st.nodes_explored := by
  unfold stepVia
  repeat' split
  all_goals rfl

theorem foldl_step2D_pf (args : RouteArgs) (sgx sgy egx egy : Int)
    (vsl vel : List Int) (cur : AStarNode) (i : Int) (l : List Neighbor) :
    ∀ st : SearchState,
      (l.foldl (step2D args sgx sgy egx egy vsl vel cur i) st).pf = st.pf := by
  induction l with
  | nil => intro st; rfl
  | cons nb rest ih => intro st; rw [List.foldl_cons, ih, step2D_pf]

theorem foldl_stepVia_pf (args : RouteArgs) (egx egy : Int) (vel : List Int)
    (cur : AStarNode) (i : Int) (l : List Int) :
    ∀ st : SearchState, (l.foldl (stepVia args egx egy vel cur i) st).pf = st.pf := by
  induction l with
  | nil => intro st; rfl
  | cons nl rest ih => intro st; rw [List.foldl_cons, ih, stepVia_pf]

theorem foldl_step2D_iterations (args : RouteArgs) (sgx sgy egx egy : Int)
    (vsl vel : List Int) (cur : AStarNode) (i : Int) (l : List Neighbor) :
    ∀ st : SearchState,
      (l.foldl (step2D args sgx sgy egx egy vsl vel cur i) st).iterations =
        st.iterations := by
  induction l with
  | nil => intro st; rfl
  | cons nb rest ih => intro st; rw [List.foldl_cons, ih, step2D_iterations]

theorem foldl_stepVia_iterations (args : RouteArgs) (egx egy : Int) (vel : List Int)
    (cur : AStarNode) (i : Int) (l : List Int) :
    ∀ st : SearchState,
      (l.foldl (stepVia args egx egy vel cur i) st).iterations = st.iterations := by
  induction l with
  | nil => intro st; rfl
  | cons nl rest ih => intro st; rw [List.foldl_cons, ih, stepVia_iterations]

theorem foldl_step2D_closed_list (args : RouteArgs) (sgx sgy egx egy : Int)
    (vsl vel : List Int) (cur : AStarNode) (i : Int) (l : List Neighbor) :
    ∀ st : SearchState,
      (l.foldl (step2D args sgx sgy egx egy vsl vel cur i) st).closed_list =
        st.closed_list := by
  induction l with
  | nil => intro st; rfl
  | cons nb rest ih => intro st; rw [List.foldl_cons, ih, step2D_closed_list]

theorem foldl_stepVia_closed_list (args : RouteArgs) (egx egy : Int) (vel : List Int)
    (cur : AStarNode) (i : Int) (l : List Int) :
    ∀ st : SearchState,
      (l.foldl (stepVia args egx egy vel cur i) st).closed_list = st.closed_list := by
  induction l with
  | nil => intro st; rfl
  | cons nl rest ih => intro st; rw [List.foldl_cons, ih, stepVia_closed_list]

end Router

namespace Router

/-- Every search-loop outcome either carries the untouched initial failure
result or succeeded. -/
theorem routeLoop_result_disj (args : RouteArgs) (sgx sgy egx egy : Int)
    (vsl vel : List Int) :
    ∀ (fuel : Nat) (st : SearchState),
      (routeLoop args sgx sgy egx egy vsl vel fuel st).result = failResult args.net ∨
      (routeLoop args sgx sgy egx egy vsl vel fuel st).result.success = true := by
  intro fuel
  induction fuel with
  | zero => intro st; exact Or.inl rfl
  | succ fuel ih =>
    intro st
    cases hos : st.open_set with
    | nil =>
      simp only [routeLoop, hos]
      exact Or.inl rfl
    | cons a rest =>
      simp only [routeLoop, hos]
      split
      · exact ih _
      · split
        · right
          simp [goalOut]
        · exact ih _

/-- The pathfinder object (grid included) is threaded unchanged through the
search loop. -/
theorem routeLoop_pf (args : RouteArgs) (sgx sgy egx egy : Int)
    (vsl vel : List Int) :
    ∀ (fuel : Nat) (st : SearchState),
      (routeLoop args sgx sgy egx egy vsl vel fuel st).pf = st.pf := by
  intro fuel
  induction fuel with
  | zero => intro st; rfl
  | succ fuel ih =>
    intro st
    cases hos : st.open_set with
    | nil => simp only [routeLoop, hos]; rfl
    | cons a rest =>
      simp only [routeLoop, hos]
      split
      · exact ih _
      · split
        · simp [goalOut]
        · rw [ih _, foldl_stepVia_pf, foldl_step2D_pf]

/-- The iteration counter grows by at most the remaining fuel. -/
theorem routeLoop_iterations_le (args : RouteArgs) (sgx sgy egx egy : Int)
    (vsl vel : List Int) :
    ∀ (fuel : Nat) (st : SearchState),
      (routeLoop args sgx sgy egx egy vsl vel fuel st).iterations ≤
        st.iterations + (fuel : Int) := by
  intro fuel
  induction fuel with
  | zero => intro st; simp [routeLoop, failOut]
  | succ fuel ih =>
    intro st
    cases hos : st.open_set with
    | nil =>
      simp only [routeLoop, hos, failOut]
      omega
    | cons a rest =>
      simp only [routeLoop, hos]
      split
      · refine le_trans (ih _) ?_
        show st.iterations + 1 + (fuel : Int) ≤ st.iterations + ((fuel : Int) + 1)
        omega
      · split
        · simp only [goalOut]
          show st.iterations + 1 ≤ st.iterations + ((fuel : Int) + 1)
          omega
        · refine le_trans (ih _) ?_
          rw [foldl_stepVia_iterations, foldl_step2D_iterations]
          show st.iterations + 1 + (fuel : Int) ≤ st.iterations + ((fuel : Int) + 1)
          omega

/-- C5. Failure semantics: whenever `route` does not succeed (the open set
emptied or the iteration cap was reached), the returned `RouteResult` has
`success = false`, empty segments, empty vias, and the requested net id. -/
theorem C5_failure_result (pf : Pathfinder) (args : RouteArgs) :
    (pf.route args).result.success = false →
    (pf.route args).result.segments = [] ∧
    (pf.route args).result.vias = [] ∧
    (pf.route args).result.net = args.net := by
  intro h
  unfold Pathfinder.route at h ⊢
  rcases routeLoop_result_disj args _ _ _ _ _ _ _ _ with hf | ht
  · rw [hf]
    exact ⟨rfl, rfl, rfl⟩
  · rw [ht] at h
    exact absurd h (by simp)

/-- Blocked 2-cell grid on which no route exists: the end pad belongs to
net 99 but net 1 is requested. -/
def c5Grid : Grid3D := (Grid3D.new 2 1 1 1 0 0).mark_blocked 1 0 0 99 true

def c5Rules : DesignRules :=
  { trace_width := 1, trace_clearance := 0, via_drill := 1, via_diameter := 1,
    via_clearance := 0, grid_resolution := 1, cost_straight := 1, cost_turn := 3/2,
    cost_via := 10, cost_congestion := 5, congestion_threshold := 1/2 }

def c5Args : RouteArgs :=
  { start_x := 0, start_y := 0, start_layer := 0, end_x := 1, end_y := 0,
    end_layer := 0, net := 1 }

def c5Out : RouteOut := (Pathfinder.new c5Grid c5Rules false).route c5Args

/-- Witness for C5 on a concrete no-path run. -/
theorem C5_failure_result_witness :
    c5Out.result.segments = [] ∧ c5Out.result.vias = [] ∧ c5Out.result.net = 1 :=
  C5_failure_result (Pathfinder.new c5Grid c5Rules false) c5Args
    (by with_unfolding_all decide)

/-- C6. Frame property: `route` never mutates the grid. The pathfinder
state (which owns the borrowed grid, hence every cell field and every
congestion counter) threaded through the whole search is returned unchanged. -/
theorem C6_route_never_mutates_grid (pf : Pathfinder) (args : RouteArgs) :
    (pf.route args).pf = pf ∧ (pf.route args).pf.grid = pf.grid := by
  have h : (pf.route args).pf = pf := by
    unfold Pathfinder.route
    exact routeLoop_pf args _ _ _ _ _ _ _ _
  exact ⟨h, by rw [h]⟩

/-- C9. Termination and the iteration cap: `route` (a total function in
this embedding) pops one node per loop iteration and performs at most
`cols·rows·4` iterations, so the reported `iterations` statistic is at
most `cols·rows·4`. -/
theorem C9_iteration_cap (pf : Pathfinder) (args : RouteArgs)
    (h : 0 ≤ pf.grid.cols * pf.grid.rows) :
    (pf.route args).iterations ≤ pf.grid.cols * pf.grid.rows * 4 := by
  unfold Pathfinder.route
  refine le_trans (routeLoop_iterations_le args _ _ _ _ _ _ _ _) ?_
  have h4 : (0 : Int) ≤ pf.grid.cols * pf.grid.rows * 4 := by
    have := mul_nonneg h (by norm_num : (0 : Int) ≤ 4)
    linarith
  dsimp only
  rw [Int.toNat_of_nonneg h4]
  omega

/-- Witness for C9 on the concrete no-path run (1 iteration ≤ 2·1·4). -/
theorem C9_iteration_cap_witness :
    c5Out.iterations ≤
      (Pathfinder.new c5Grid c5Rules false).grid.cols *
        (Pathfinder.new c5Grid c5Rules false).grid.rows * 4 :=
  C9_iteration_cap (Pathfinder.new c5Grid c5Rules false) c5Args (by decide)

end Router

namespace Router

/-- A path move: a 2-D step by one of the precomputed neighbor offsets, or
a via to another layer. -/
inductive Move where
  | step (nb : Neighbor)
  | via (l : Int)
deriving DecidableEq, Repr

/-- The state carried along a candidate path: position, layer, the
direction of the last step (0,0 at a root), and the accumulated g-cost of
the code's non-negotiated cost model. -/
structure PathState where
  x : Int
  y : Int
  layer : Int
  dx : Int
  dy : Int
  cost : ℚ
deriving DecidableEq, Repr

/-- The path state a search root starts from: the start grid cell, no
direction, cost 0. -/
def startState (sgx sgy sl : Int) : PathState :=
  { x := sgx, y := sgy, layer := sl, dx := 0, dy := 0, cost := 0 }

/-- Apply one move to a path state, accumulating exactly the step cost the
search charges in non-negotiated mode: `cost_mult·cost_straight + turn
penalty + congestion penalty` for a 2-D step, `cost_via + congestion
penalty` for a via. -/
def moveApply (pf : Pathfinder) (s : PathState) : Move → PathState
  | .step nb =>
    { x := s.x + nb.dx, y := s.y + nb.dy, layer := s.layer, dx := nb.dx, dy := nb.dy,
      cost := s.cost + nb.cost_mult * pf.rules.cost_straight +
        (if (s.dx ≠ 0 ∨ s.dy ≠ 0) ∧ (s.dx ≠ nb.dx ∨ s.dy ≠ nb.dy) then
          pf.rules.cost_turn else 0) +
        pf.get_congestion_cost (s.x + nb.dx) (s.y + nb.dy) s.layer }
  | .via l =>
    { x := s.x, y := s.y, layer := l, dx := s.dx, dy := s.dy,
      cost := s.cost + pf.rules.cost_via + pf.get_congestion_cost s.x s.y l }

/-- Run a list of moves from a path state. -/
def pathRun (pf : Pathfinder) (s : PathState) (moves : List Move) : PathState :=
  moves.foldl (moveApply pf) s

/-- A move is legal at a path state exactly when the non-negotiated search
would accept the corresponding expansion: a 2-D step must use a
precomputed neighbor offset, stay in bounds, pass the diagonal
corner-cut check, and — if the target cell is blocked — be a start/end
position of the right net or pass the trace-footprint check; a via must
go to a routable layer different from the current one with an unblocked
via footprint. -/
def MoveOk (pf : Pathfinder) (net sgx sgy egx egy : Int) (vsl vel : List Int)
    (s : PathState) : Move → Prop
  | .step nb =>
    nb ∈ pf.neighbors_2d ∧
    pf.grid.is_valid (s.x + nb.dx) (s.y + nb.dy) s.layer = true ∧
    ¬(nb.dx ≠ 0 ∧ nb.dy ≠ 0 ∧
      pf.is_diagonal_blocked s.x s.y nb.dx nb.dy s.layer net false = true) ∧
    ((pf.grid.cellAt (s.x + nb.dx) (s.y + nb.dy) s.layer).blocked = true →
      (((s.x + nb.dx = sgx ∧ s.y + nb.dy = sgy ∧ s.layer ∈ vsl) ∨
        (s.x + nb.dx = egx ∧ s.y + nb.dy = egy ∧ s.layer ∈ vel)) ∧
        (pf.grid.cellAt (s.x + nb.dx) (s.y + nb.dy) s.layer).net = net) ∨
      (¬((s.x + nb.dx = sgx ∧ s.y + nb.dy = sgy ∧ s.layer ∈ vsl) ∨
        (s.x + nb.dx = egx ∧ s.y + nb.dy = egy ∧ s.layer ∈ vel)) ∧
        pf.is_trace_blocked (s.x + nb.dx) (s.y + nb.dy) s.layer net false = false))
  | .via l =>
    l ∈ pf.routable_layers ∧ l ≠ s.layer ∧
    pf.is_via_blocked s.x s.y net false = false

/-- A list of moves is legal from a state when each move is legal at the
state it is applied to. -/
def LegalFrom (pf : Pathfinder) (net sgx sgy egx egy : Int) (vsl vel : List Int) :
    PathState → List Move → Prop
  | _, [] => True
  | s, m :: ms =>
    MoveOk pf net sgx sgy egx egy vsl vel s m ∧
    LegalFrom pf net sgx sgy egx egy vsl vel (moveApply pf s m) ms

theorem pathRun_append_single (pf : Pathfinder) (s : PathState) (ms : List Move)
    (m : Move) : pathRun pf s (ms ++ [m]) = moveApply pf (pathRun pf s ms) m := by
  unfold pathRun
  rw [List.foldl_append]
  rfl

theorem pathRun_cons (pf : Pathfinder) (s : PathState) (m : Move) (ms : List Move) :
    pathRun pf s (m :: ms) = pathRun pf (moveApply pf s m) ms := rfl

theorem LegalFrom_nil (pf : Pathfinder) (net sgx sgy egx egy : Int)
    (vsl vel : List Int) (s : PathState) :
    LegalFrom pf net sgx sgy egx egy vsl vel s [] = True := rfl

theorem LegalFrom_cons (pf : Pathfinder) (net sgx sgy egx egy : Int)
    (vsl vel : List Int) (s : PathState) (m : Move) (ms : List Move) :
    LegalFrom pf net sgx sgy egx egy vsl vel s (m :: ms) =
      (MoveOk pf net sgx sgy egx egy vsl vel s m ∧
        LegalFrom pf net sgx sgy egx egy vsl vel (moveApply pf s m) ms) := rfl

theorem LegalFrom_append_single (pf : Pathfinder) (net sgx sgy egx egy : Int)
    (vsl vel : List Int) (ms : List Move) (m : Move) :
    ∀ s : PathState,
      LegalFrom pf net sgx sgy egx egy vsl vel s (ms ++ [m]) ↔
        LegalFrom pf net sgx sgy egx egy vsl vel s ms ∧
        MoveOk pf net sgx sgy egx egy vsl vel (pathRun pf s ms) m := by
  induction ms with
  | nil =>
    intro s
    rw [List.nil_append, LegalFrom_cons, LegalFrom_nil]
    show _ ↔ True ∧ _
    rw [true_and]
    constructor
    · intro ⟨h1, _⟩; exact h1
    · intro h1; exact ⟨h1, trivial⟩
  | cons m0 rest ih =>
    intro s
    rw [List.cons_append, LegalFrom_cons, LegalFrom_cons, ih (moveApply pf s m0),
      pathRun_cons, and_assoc]

theorem mem_offsets (r d : Int) : d ∈ offsets r ↔ -r ≤ d ∧ d ≤ r := by
  unfold offsets
  rw [List.mem_map]
  constructor
  · rintro ⟨i, hi, he⟩
    rw [List.mem_range] at hi
    omega
  · rintro ⟨h1, h2⟩
    exact ⟨(d + r).toNat, List.mem_range.mpr (by omega), by omega⟩

/-- A cell passing the standard-mode blocking policy is free, or a
non-obstacle cell of the requested net. -/
theorem cellBlockPolicy_false_standard (c : GridCell) (net : Int)
    (h : Pathfinder.cellBlockPolicy c net false = h2) (h2eq : h2 = false) :
    c.blocked = false ∨ (c.is_obstacle = false ∧ c.net = net) := by
  subst h2eq
  unfold Pathfinder.cellBlockPolicy at h
  by_cases hb : c.blocked = true
  · rw [if_pos hb] at h
    simp only [Bool.false_and, Bool.false_eq_true, if_false, Bool.or_eq_false_iff,
      Bool.not_eq_false', beq_iff_eq] at h
    exact Or.inr h
  · left
    revert hb
    cases c.blocked <;> simp

/-- Reading off `is_trace_blocked = false` cell by cell: every footprint
cell is in bounds and either free or a non-obstacle cell of the same net. -/
theorem trace_clear_of_not_blocked (pf : Pathfinder) (x y layer net : Int)
    (h : pf.is_trace_blocked x y layer net false = false) :
    ∀ ddx ddy : Int, |ddx| ≤ pf.trace_half_width_cells →
      |ddy| ≤ pf.trace_half_width_cells →
      pf.grid.is_valid (x + ddx) (y + ddy) layer = true ∧
      ((pf.grid.cellAt (x + ddx) (y + ddy) layer).blocked = false ∨
        ((pf.grid.cellAt (x + ddx) (y + ddy) layer).is_obstacle = false ∧
          (pf.grid.cellAt (x + ddx) (y + ddy) layer).net = net)) := by
  intro ddx ddy hdx hdy
  rw [abs_le] at hdx hdy
  unfold Pathfinder.is_trace_blocked at h
  rw [List.any_eq_false] at h
  have hy := h ddy ((mem_offsets _ _).mpr hdy)
  rw [Bool.not_eq_true, List.any_eq_false] at hy
  have hx := hy ddx ((mem_offsets _ _).mpr hdx)
  rw [Bool.not_eq_true] at hx
  dsimp only at hx
  by_cases hv : pf.grid.is_valid (x + ddx) (y + ddy) layer = true
  · rw [if_pos hv] at hx
    exact ⟨hv, cellBlockPolicy_false_standard _ _ hx rfl⟩
  · rw [if_neg hv] at hx
    exact absurd hx (by simp)

/-- The popped node comes from the open list, and the remaining list is a
sublist of it. -/
theorem popMin_mem :
    ∀ l : List AStarNode, l ≠ [] →
      (popMin l).1 ∈ l ∧ ∀ x ∈ (popMin l).2, x ∈ l := by
  intro l
  induction l with
  | nil => intro h; exact absurd rfl h
  | cons a rest ih =>
    intro _
    cases rest with
    | nil => simp [popMin]
    | cons b rest2 =>
      obtain ⟨ihm, ihs⟩ := ih (by simp)
      rcases hpm : popMin (b :: rest2) with ⟨m, r2⟩
      rw [hpm] at ihm ihs
      simp only [popMin, hpm]
      split
      · exact ⟨List.mem_cons_self a _, fun x hx => List.mem_cons_of_mem a hx⟩
      · constructor
        · exact List.mem_cons_of_mem a ihm
        · intro x hx
          rcases List.mem_cons.mp hx with rfl | hx2
          · exact List.mem_cons_self x _
          · exact List.mem_cons_of_mem a (ihs x hx2)

/-- Every entry of the reconstructed parent chain is a stored closed-list
node. -/
theorem buildChain_subset (cl : List AStarNode) :
    ∀ (fuel : Nat) (idx : Int) (n : AStarNode),
      n ∈ buildChain cl fuel idx → n ∈ cl := by
  intro fuel
  induction fuel with
  | zero => intro idx n hn; exact absurd hn (by simp [buildChain])
  | succ fuel ih =>
    intro idx n hn
    unfold buildChain at hn
    split at hn
    · rename_i hrange
      rcases List.mem_cons.mp hn with rfl | h2
      · have hlt : idx.toNat < cl.length := by omega
        rw [List.getD_eq_getElem cl default hlt]
        exact List.getElem_mem hlt
      · exact ih _ _ h2
    · exact absurd hn (by simp)

end Router

namespace Router

/-- The clearance discipline a 2-D-expanded node satisfies: unless it sits
on a start/end position, a node whose own cell is blocked must have passed
the trace-footprint check. -/
def NodeSafe (pf : Pathfinder) (net sgx sgy egx egy : Int) (vsl vel : List Int)
    (n : AStarNode) : Prop :=
  n.via_from_parent = false →
  ¬(n.x = sgx ∧ n.y = sgy ∧ n.layer ∈ vsl) →
  ¬(n.x = egx ∧ n.y = egy ∧ n.layer ∈ vel) →
  (pf.grid.cellAt n.x n.y n.layer).blocked = true →
  pf.is_trace_blocked n.x n.y n.layer net false = false

/-- A node is realised by a legal path: some sequence of legal moves from
a valid start layer reaches its position with its direction, and its
g-score is exactly that path's accumulated cost. -/
def NodeReal (pf : Pathfinder) (net sgx sgy egx egy : Int) (vsl vel : List Int)
    (n : AStarNode) : Prop :=
  ∃ (sl : Int) (moves : List Move),
    sl ∈ vsl ∧
    LegalFrom pf net sgx sgy egx egy vsl vel (startState sgx sgy sl) moves ∧
    (pathRun pf (startState sgx sgy sl) moves).x = n.x ∧
    (pathRun pf (startState sgx sgy sl) moves).y = n.y ∧
    (pathRun pf (startState sgx sgy sl) moves).layer = n.layer ∧
    (pathRun pf (startState sgx sgy sl) moves).dx = n.dx ∧
    (pathRun pf (startState sgx sgy sl) moves).dy = n.dy ∧
    n.g_score = (((pathRun pf (startState sgx sgy sl) moves).cost : ℚ) : WithTop ℚ)

/-- Nodes pushed by the tail of a 2-D expansion whose guards all passed:
they are safe, realised by one more legal step, and their parent is the
current closed-list index. -/
theorem step2DPush_open_mem (args : RouteArgs) (hneg : args.negotiated_mode = false)
    (sgx sgy egx egy : Int) (vsl vel : List Int) (cur : AStarNode) (i : Int)
    (st : SearchState) (nb : Neighbor)
    (hnb : nb ∈ st.pf.neighbors_2d)
    (hreal : NodeReal st.pf args.net sgx sgy egx egy vsl vel cur)
    (hval : st.pf.grid.is_valid (cur.x + nb.dx) (cur.y + nb.dy) cur.layer = true)
    (hdiag : ¬(nb.dx ≠ 0 ∧ nb.dy ≠ 0 ∧
      st.pf.is_diagonal_blocked cur.x cur.y nb.dx nb.dy cur.layer args.net false = true))
    (hblocked :
      (st.pf.grid.cellAt (cur.x + nb.dx) (cur.y + nb.dy) cur.layer).blocked = true →
      (((cur.x + nb.dx = sgx ∧ cur.y + nb.dy = sgy ∧ cur.layer ∈ vsl) ∨
        (cur.x + nb.dx = egx ∧ cur.y + nb.dy = egy ∧ cur.layer ∈ vel)) ∧
        (st.pf.grid.cellAt (cur.x + nb.dx) (cur.y + nb.dy) cur.layer).net = args.net) ∨
      (¬((cur.x + nb.dx = sgx ∧ cur.y + nb.dy = sgy ∧ cur.layer ∈ vsl) ∨
        (cur.x + nb.dx = egx ∧ cur.y + nb.dy = egy ∧ cur.layer ∈ vel)) ∧
        st.pf.is_trace_blocked (cur.x + nb.dx) (cur.y + nb.dy) cur.layer args.net
          false = false)) :
    ∀ n ∈ (step2DPush args egx egy vel cur i st nb).open_set,
      n ∈ st.open_set ∨
      (NodeSafe st.pf args.net sgx sgy egx egy vsl vel n ∧
       NodeReal st.pf args.net sgx sgy egx egy vsl vel n ∧ n.parent_idx = i) := by
  intro n hn
  unfold step2DPush at hn
  split at hn
  · exact Or.inl hn
  · split at hn
    · dsimp only at hn
      rcases List.mem_append.mp hn with hold | hnew
      · exact Or.inl hold
      · right
        rw [List.mem_singleton] at hnew
        subst hnew
        obtain ⟨sl, mv, hsl, hleg, hx, hy, hl, hdx, hdy, hg⟩ := hreal
        refine ⟨?_, ?_, rfl⟩
        · intro _ hns hne hb
          dsimp only [node2D] at hns hne hb ⊢
          rcases hblocked hb with ⟨hse, _⟩ | ⟨_, htr⟩
          · exact absurd hse (fun h => h.elim hns hne)
          · exact htr
        · refine ⟨sl, mv ++ [Move.step nb], hsl, ?_, ?_, ?_, ?_, ?_, ?_, ?_⟩
          · rw [LegalFrom_append_single]
            refine ⟨hleg, hnb, ?_, ?_, ?_⟩
            · rw [hx, hy, hl]
              exact hval
            · rw [hx, hy, hl]
              exact hdiag
            · rw [hx, hy, hl]
              exact hblocked
          · rw [pathRun_append_single]
            dsimp only [moveApply, node2D]
            rw [hx]
          · rw [pathRun_append_single]
            dsimp only [moveApply, node2D]
            rw [hy]
          · rw [pathRun_append_single]
            dsimp only [moveApply, node2D]
            rw [hl]
          · rw [pathRun_append_single]
            dsimp only [moveApply, node2D]
          · rw [pathRun_append_single]
            dsimp only [moveApply, node2D]
          · rw [pathRun_append_single]
            dsimp only [moveApply, node2D, newG2D, turnCost, negCost]
            rw [hneg, if_neg (by simp : ¬(false = true)), add_zero, hg,
              hx, hy, hl, hdx, hdy]
            rw [← WithTop.coe_add, ← WithTop.coe_add, ← WithTop.coe_add]
    · exact Or.inl hn

/-- Nodes pushed by a via expansion whose guards passed: vacuously safe
(they are via landings), realised by one more legal via move. -/
theorem stepVia_open_mem (args : RouteArgs) (hneg : args.negotiated_mode = false)
    (sgx sgy egx egy : Int) (vsl vel : List Int) (cur : AStarNode) (i : Int)
    (st : SearchState) (nl : Int)
    (hnl : nl ∈ st.pf.routable_layers)
    (hreal : NodeReal st.pf args.net sgx sgy egx egy vsl vel cur) :
    ∀ n ∈ (stepVia args egx egy vel cur i st nl).open_set,
      n ∈ st.open_set ∨
      (NodeSafe st.pf args.net sgx sgy egx egy vsl vel n ∧
       NodeReal st.pf args.net sgx sgy egx egy vsl vel n ∧ n.parent_idx = i) := by
  intro n hn
  unfold stepVia at hn
  split at hn
  · exact Or.inl hn
  · rename_i hlayer
    split at hn
    · exact Or.inl hn
    · rename_i hviablocked
      split at hn
      · exact Or.inl hn
      · split at hn
        · dsimp only at hn
          rcases List.mem_append.mp hn with hold | hnew
          · exact Or.inl hold
          · right
            rw [List.mem_singleton] at hnew
            subst hnew
            obtain ⟨sl, mv, hsl, hleg, hx, hy, hl, hdx, hdy, hg⟩ := hreal
            refine ⟨?_, ?_, rfl⟩
            · intro hvia
              exact absurd hvia (by simp [nodeVia])
            · rw [hneg] at hviablocked
              refine ⟨sl, mv ++ [Move.via nl], hsl, ?_, ?_, ?_, ?_, ?_, ?_, ?_⟩
              · rw [LegalFrom_append_single]
                refine ⟨hleg, hnl, ?_, ?_⟩
                · rw [hl]
                  exact hlayer
                · rw [hx, hy]
                  revert hviablocked
                  cases st.pf.is_via_blocked cur.x cur.y args.net false <;> simp
              · rw [pathRun_append_single]
                dsimp only [moveApply, nodeVia]
                rw [hx]
              · rw [pathRun_append_single]
                dsimp only [moveApply, nodeVia]
                rw [hy]
              · rw [pathRun_append_single]
                dsimp only [moveApply, nodeVia]
              · rw [pathRun_append_single]
                dsimp only [moveApply, nodeVia]
                rw [hdx]
              · rw [pathRun_append_single]
                dsimp only [moveApply, nodeVia]
                rw [hdy]
              · rw [pathRun_append_single]
                dsimp only [moveApply, nodeVia, newGVia, negCost]
                rw [hneg, if_neg (by simp : ¬(false = true)), add_zero, hg, hx, hy]
                rw [← WithTop.coe_add, ← WithTop.coe_add]
        · exact Or.inl hn

end Router

namespace Router

/-- Any node a 2-D expansion adds to the open set is safe and realised;
everything else was already there. -/
theorem step2D_open_mem (args : RouteArgs) (hneg : args.negotiated_mode = false)
    (sgx sgy egx egy : Int) (vsl vel : List Int) (cur : AStarNode) (i : Int)
    (st : SearchState) (nb : Neighbor)
    (hnb : nb ∈ st.pf.neighbors_2d)
    (hreal : NodeReal st.pf args.net sgx sgy egx egy vsl vel cur) :
    ∀ n ∈ (step2D args sgx sgy egx egy vsl vel cur i st nb).open_set,
      n ∈ st.open_set ∨
      (NodeSafe st.pf args.net sgx sgy egx egy vsl vel n ∧
       NodeReal st.pf args.net sgx sgy egx egy vsl vel n ∧ n.parent_idx = i) := by
  intro n hn
  unfold step2D at hn
  dsimp only at hn
  split at hn
  · exact Or.inl hn
  · rename_i hv
    rw [not_not] at hv
    split at hn
    · exact Or.inl hn
    · rename_i hd
      rw [hneg] at hd
      split at hn
      · rename_i hb
        split at hn
        · rename_i hse
          split at hn
          · exact Or.inl hn
          · rename_i hnet
            rw [not_not] at hnet
            exact step2DPush_open_mem args hneg sgx sgy egx egy vsl vel cur i st nb
              hnb hreal hv hd (fun _ => Or.inl ⟨hse, hnet⟩) n hn
        · rename_i hnse
          split at hn
          · exact Or.inl hn
          · rename_i htr
            rw [hneg] at htr
            have htr2 : st.pf.is_trace_blocked (cur.x + nb.dx) (cur.y + nb.dy)
                cur.layer args.net false = false := by
              revert htr
              cases st.pf.is_trace_blocked (cur.x + nb.dx) (cur.y + nb.dy)
                cur.layer args.net false <;> simp
            exact step2DPush_open_mem args hneg sgx sgy egx egy vsl vel cur i st nb
              hnb hreal hv hd (fun _ => Or.inr ⟨hnse, htr2⟩) n hn
      · rename_i hbf
        exact step2DPush_open_mem args hneg sgx sgy egx egy vsl vel cur i st nb
          hnb hreal hv hd (fun hb2 => absurd hb2 hbf) n hn

theorem foldl_step2D_open_inv (args : RouteArgs) (hneg : args.negotiated_mode = false)
    (sgx sgy egx egy : Int) (vsl vel : List Int) (cur : AStarNode) (i : Int)
    (pf : Pathfinder) :
    ∀ (l : List Neighbor) (st : SearchState), st.pf = pf →
      (∀ nb ∈ l, nb ∈ pf.neighbors_2d) →
      NodeReal pf args.net sgx sgy egx egy vsl vel cur →
      ∀ n ∈ (l.foldl (step2D args sgx sgy egx egy vsl vel cur i) st).open_set,
        n ∈ st.open_set ∨
        (NodeSafe pf args.net sgx sgy egx egy vsl vel n ∧
         NodeReal pf args.net sgx sgy egx egy vsl vel n ∧ n.parent_idx = i) := by
  intro l
  induction l with
  | nil => intro st _ _ _ n hn; exact Or.inl hn
  | cons nb rest ih =>
    intro st hpf hsub hreal n hn
    rw [List.foldl_cons] at hn
    have hpf2 : (step2D args sgx sgy egx egy vsl vel cur i st nb).pf = pf := by
      rw [step2D_pf, hpf]
    rcases ih _ hpf2 (fun x hx => hsub x (List.mem_cons_of_mem _ hx)) hreal n hn with
      h1 | h2
    · have := step2D_open_mem args hneg sgx sgy egx egy vsl vel cur i st nb
        (by rw [hpf]; exact hsub nb (List.mem_cons_self _ _))
        (by rw [hpf]; exact hreal) n h1
      rw [hpf] at this
      exact this
    · exact Or.inr h2

theorem stepVia_open_mem2 (args : RouteArgs) (hneg : args.negotiated_mode = false)
    (sgx sgy egx egy : Int) (vsl vel : List Int) (cur : AStarNode) (i : Int)
    (st : SearchState) (nl : Int)
    (hnl : nl ∈ st.pf.routable_layers)
    (hreal : NodeReal st.pf args.net sgx sgy egx egy vsl vel cur) :
    ∀ n ∈ (stepVia args egx egy vel cur i st nl).open_set,
      n ∈ st.open_set ∨
      (NodeSafe st.pf args.net sgx sgy egx egy vsl vel n ∧
       NodeReal st.pf args.net sgx sgy egx egy vsl vel n ∧ n.parent_idx = i) :=
  stepVia_open_mem args hneg sgx sgy egx egy vsl vel cur i st nl hnl hreal

theorem foldl_stepVia_open_inv (args : RouteArgs) (hneg : args.negotiated_mode = false)
    (sgx sgy egx egy : Int) (vsl vel : List Int) (cur : AStarNode) (i : Int)
    (pf : Pathfinder) :
    ∀ (l : List Int) (st : SearchState), st.pf = pf →
      (∀ x ∈ l, x ∈ pf.routable_layers) →
      NodeReal pf args.net sgx sgy egx egy vsl vel cur →
      ∀ n ∈ (l.foldl (stepVia args egx egy vel cur i) st).open_set,
        n ∈ st.open_set ∨
        (NodeSafe pf args.net sgx sgy egx egy vsl vel n ∧
         NodeReal pf args.net sgx sgy egx egy vsl vel n ∧ n.parent_idx = i) := by
  intro l
  induction l with
  | nil => intro st _ _ _ n hn; exact Or.inl hn
  | cons nl rest ih =>
    intro st hpf hsub hreal n hn
    rw [List.foldl_cons] at hn
    have hpf2 : (stepVia args egx egy vel cur i st nl).pf = pf := by
      rw [stepVia_pf, hpf]
    rcases ih _ hpf2 (fun x hx => hsub x (List.mem_cons_of_mem _ hx)) hreal n hn with
      h1 | h2
    · have := stepVia_open_mem args hneg sgx sgy egx egy vsl vel cur i st nl
        (by rw [hpf]; exact hsub nl (List.mem_cons_self _ _))
        (by rw [hpf]; exact hreal) n h1
      rw [hpf] at this
      exact this
    · exact Or.inr h2

end Router

namespace Router

/-- Combined open-set invariant for one node expansion (2-D fold followed
by the via fold): a node of the resulting open set was either already
there, or is safe and realised. -/
theorem expand_open_inv (args : RouteArgs) (hneg : args.negotiated_mode = false)
    (sgx sgy egx egy : Int) (vsl vel : List Int) (cur : AStarNode) (i : Int)
    (pf : Pathfinder) (st : SearchState) (hpf : st.pf = pf)
    (hreal : NodeReal pf args.net sgx sgy egx egy vsl vel cur) :
    ∀ n ∈ ((st.pf.neighbors_2d.foldl
        (step2D args sgx sgy egx egy vsl vel cur i) st).pf.routable_layers.foldl
          (stepVia args egx egy vel cur i)
          (st.pf.neighbors_2d.foldl
            (step2D args sgx sgy egx egy vsl vel cur i) st)).open_set,
      n ∈ st.open_set ∨
      (NodeSafe pf args.net sgx sgy egx egy vsl vel n ∧
       NodeReal pf args.net sgx sgy egx egy vsl vel n) := by
  intro n hn
  have hpf4 : (st.pf.neighbors_2d.foldl
      (step2D args sgx sgy egx egy vsl vel cur i) st).pf = pf := by
    rw [foldl_step2D_pf]; exact hpf
  have hid4 : ∀ x ∈ (st.pf.neighbors_2d.foldl
      (step2D args sgx sgy egx egy vsl vel cur i) st).pf.routable_layers,
      x ∈ pf.routable_layers := by
    rw [hpf4]; exact fun x hx => hx
  have hid2 : ∀ x ∈ st.pf.neighbors_2d, x ∈ pf.neighbors_2d := by
    rw [hpf]; exact fun x hx => hx
  rcases foldl_stepVia_open_inv args hneg sgx sgy egx egy vsl vel cur i pf
      ((st.pf.neighbors_2d.foldl
        (step2D args sgx sgy egx egy vsl vel cur i) st).pf.routable_layers)
      (st.pf.neighbors_2d.foldl (step2D args sgx sgy egx egy vsl vel cur i) st)
      hpf4 hid4 hreal n hn with h1 | h2
  · rcases foldl_step2D_open_inv args hneg sgx sgy egx egy vsl vel cur i pf
        st.pf.neighbors_2d st hpf hid2 hreal n h1 with h3 | h4
    · exact Or.inl h3
    · exact Or.inr ⟨h4.1, h4.2.1⟩
  · exact Or.inr ⟨h2.1, h2.2.1⟩

/-- The search-loop invariant: if every open and closed-list node is safe
and realised, that stays true of the final closed list, and any reported
goal node is realised and sits at the goal position on a valid end
layer. -/
theorem routeLoop_inv (args : RouteArgs) (hneg : args.negotiated_mode = false)
    (pf : Pathfinder) (sgx sgy egx egy : Int) (vsl vel : List Int) :
    ∀ (fuel : Nat) (st : SearchState), st.pf = pf →
      (∀ n ∈ st.open_set, NodeSafe pf args.net sgx sgy egx egy vsl vel n ∧
        NodeReal pf args.net sgx sgy egx egy vsl vel n) →
      (∀ n ∈ st.closed_list, NodeSafe pf args.net sgx sgy egx egy vsl vel n ∧
        NodeReal pf args.net sgx sgy egx egy vsl vel n) →
      (∀ n ∈ (routeLoop args sgx sgy egx egy vsl vel fuel st).closed_list,
        NodeSafe pf args.net sgx sgy egx egy vsl vel n ∧
        NodeReal pf args.net sgx sgy egx egy vsl vel n) ∧
      (∀ nd, (routeLoop args sgx sgy egx egy vsl vel fuel st).goal_node = some nd →
        NodeReal pf args.net sgx sgy egx egy vsl vel nd ∧
        nd.x = egx ∧ nd.y = egy ∧ nd.layer ∈ vel) := by
  intro fuel
  induction fuel with
  | zero =>
    intro st _ _ hcl
    refine ⟨hcl, ?_⟩
    intro nd h
    simp [routeLoop, failOut] at h
  | succ fuel ih =>
    intro st hpf hopen hcl
    cases hos : st.open_set with
    | nil =>
      simp only [routeLoop, hos]
      refine ⟨hcl, ?_⟩
      intro nd h
      simp [failOut] at h
    | cons a rest =>
      have hcur : (popMin (a :: rest)).1 ∈ st.open_set := by
        rw [hos]; exact (popMin_mem (a :: rest) (by simp)).1
      have hrem : ∀ x ∈ (popMin (a :: rest)).2, x ∈ st.open_set := by
        rw [hos]; exact (popMin_mem (a :: rest) (by simp)).2
      simp only [routeLoop, hos]
      split
      · exact ih _ hpf (fun n hn => hopen n (hrem n hn)) hcl
      · split
        · rename_i hgoal
          constructor
          · intro n hn
            have hn2 : n ∈ st.closed_list ++ [(popMin (a :: rest)).1] := hn
            rcases List.mem_append.mp hn2 with h1 | h2
            · exact hcl n h1
            · have h3 := List.mem_singleton.mp h2
              subst h3
              exact hopen _ hcur
          · intro nd h
            have h2 : some ((popMin (a :: rest)).1) = some nd := h
            have h3 := Option.some.inj h2
            subst h3
            exact ⟨(hopen _ hcur).2, hgoal⟩
        · refine ih _ ?_ ?_ ?_
          · rw [foldl_stepVia_pf, foldl_step2D_pf]; exact hpf
          · intro n hn
            rcases expand_open_inv args hneg sgx sgy egx egy vsl vel
                (popMin (a :: rest)).1 (st.closed_list.length : Int) pf
                { pf := st.pf, open_set := (popMin (a :: rest)).2,
                  closed_set := ((popMin (a :: rest)).1.x, (popMin (a :: rest)).1.y,
                    (popMin (a :: rest)).1.layer) :: st.closed_set,
                  g_scores := st.g_scores,
                  closed_list := st.closed_list ++ [(popMin (a :: rest)).1],
                  iterations := st.iterations + 1,
                  nodes_explored := st.nodes_explored + 1 }
                hpf (hopen _ hcur).2 n hn with h1 | h2
            · exact hopen n (hrem n h1)
            · exact h2
          · intro n hn
            rw [foldl_stepVia_closed_list, foldl_step2D_closed_list] at hn
            have hn2 : n ∈ st.closed_list ++ [(popMin (a :: rest)).1] := hn
            rcases List.mem_append.mp hn2 with h1 | h2
            · exact hcl n h1
            · have h3 := List.mem_singleton.mp h2
              subst h3
              exact hopen _ hcur

/-- Every node of the reconstructed path list is a closed-list node of the
same run. -/
theorem routeLoop_path_nodes_sub (args : RouteArgs) (sgx sgy egx egy : Int)
    (vsl vel : List Int) :
    ∀ (fuel : Nat) (st : SearchState),
      ∀ n ∈ (routeLoop args sgx sgy egx egy vsl vel fuel st).path_nodes,
        n ∈ (routeLoop args sgx sgy egx egy vsl vel fuel st).closed_list := by
  intro fuel
  induction fuel with
  | zero =>
    intro st n hn
    simp [routeLoop, failOut] at hn
  | succ fuel ih =>
    intro st
    cases hos : st.open_set with
    | nil =>
      simp only [routeLoop, hos]
      intro n hn
      simp [failOut] at hn
    | cons a rest =>
      simp only [routeLoop, hos]
      split
      · exact ih _
      · split
        · intro n hn
          have hn2 : n ∈ (buildChain (st.closed_list ++ [(popMin (a :: rest)).1])
              (st.closed_list ++ [(popMin (a :: rest)).1]).length
              (st.closed_list.length : Int)).reverse := hn
          rw [List.mem_reverse] at hn2
          exact buildChain_subset _ _ _ _ hn2
        · exact ih _

end Router

namespace Router

/-- Move legality is a decidable check (it mirrors the code's Boolean
guards). -/
def decMoveOk (pf : Pathfinder) (net sgx sgy egx egy : Int) (vsl vel : List Int)
    (s : PathState) :
    (m : Move) → Decidable (MoveOk pf net sgx sgy egx egy vsl vel s m)
  | .step nb => by dsimp only [MoveOk]; infer_instance
  | .via l => by dsimp only [MoveOk]; infer_instance

instance (pf : Pathfinder) (net sgx sgy egx egy : Int) (vsl vel : List Int)
    (s : PathState) (m : Move) :
    Decidable (MoveOk pf net sgx sgy egx egy vsl vel s m) :=
  decMoveOk pf net sgx sgy egx egy vsl vel s m

/-- Path legality is a decidable check. -/
def decLegalFrom (pf : Pathfinder) (net sgx sgy egx egy : Int) (vsl vel : List Int) :
    (s : PathState) → (ms : List Move) →
      Decidable (LegalFrom pf net sgx sgy egx egy vsl vel s ms)
  | _, [] => .isTrue trivial
  | s, m :: ms =>
    @instDecidableAnd _ _ (decMoveOk pf net sgx sgy egx egy vsl vel s m)
      (decLegalFrom pf net sgx sgy egx egy vsl vel (moveApply pf s m) ms)

instance (pf : Pathfinder) (net sgx sgy egx egy : Int) (vsl vel : List Int)
    (s : PathState) (ms : List Move) :
    Decidable (LegalFrom pf net sgx sgy egx egy vsl vel s ms) :=
  decLegalFrom pf net sgx sgy egx egy vsl vel s ms

/-- Route-level invariant: in non-negotiated mode every closed-list node of
a `route` call is safe and realised, and a reported goal node is realised
and sits at the goal cell on a valid end layer. -/
theorem route_closed_inv (pf : Pathfinder) (args : RouteArgs)
    (hneg : args.negotiated_mode = false) :
    (∀ n ∈ (pf.route args).closed_list,
      NodeSafe pf args.net
        (pf.grid.world_to_grid args.start_x args.start_y).1
        (pf.grid.world_to_grid args.start_x args.start_y).2
        (pf.grid.world_to_grid args.end_x args.end_y).1
        (pf.grid.world_to_grid args.end_x args.end_y).2
        (validStartLayers args) (validEndLayers args) n ∧
      NodeReal pf args.net
        (pf.grid.world_to_grid args.start_x args.start_y).1
        (pf.grid.world_to_grid args.start_x args.start_y).2
        (pf.grid.world_to_grid args.end_x args.end_y).1
        (pf.grid.world_to_grid args.end_x args.end_y).2
        (validStartLayers args) (validEndLayers args) n) ∧
    (∀ nd, (pf.route args).goal_node = some nd →
      NodeReal pf args.net
        (pf.grid.world_to_grid args.start_x args.start_y).1
        (pf.grid.world_to_grid args.start_x args.start_y).2
        (pf.grid.world_to_grid args.end_x args.end_y).1
        (pf.grid.world_to_grid args.end_x args.end_y).2
        (validStartLayers args) (validEndLayers args) nd ∧
      nd.x = (pf.grid.world_to_grid args.end_x args.end_y).1 ∧
      nd.y = (pf.grid.world_to_grid args.end_x args.end_y).2 ∧
      nd.layer ∈ validEndLayers args) := by
  simp only [Pathfinder.route]
  apply routeLoop_inv args hneg pf
  · rfl
  · intro m hm
    rw [List.mem_map] at hm
    obtain ⟨sl, hsl, rfl⟩ := hm
    constructor
    · intro _ h2 _ _
      exact absurd ⟨rfl, rfl, hsl⟩ h2
    · exact ⟨sl, [], hsl, trivial, rfl, rfl, rfl, rfl, rfl, rfl⟩
  · intro m hm
    exact absurd hm (List.not_mem_nil m)

/-- Route-level form of the path/closed-list inclusion. -/
theorem route_path_nodes_sub (pf : Pathfinder) (args : RouteArgs) :
    ∀ n ∈ (pf.route args).path_nodes, n ∈ (pf.route args).closed_list := by
  simp only [Pathfinder.route]
  exact routeLoop_path_nodes_sub args _ _ _ _ _ _ _ _

end Router

namespace Router

def c1xGrid : Grid3D :=
  (((Grid3D.new 3 2 1 1 0 0).mark_blocked 0 0 0 1 false).mark_blocked 2 0 0 1
    false).mark_blocked 1 0 0 2 false

def c1xRules : DesignRules :=
  { trace_width := 1, trace_clearance := 0, grid_resolution := 1 }

def c1xPf : Pathfinder := Pathfinder.new c1xGrid c1xRules false

def c1xArgs : RouteArgs :=
  { start_x := 0, start_y := 0, start_layer := 0,
    end_x := 2, end_y := 0, end_layer := 0, net := 1 }

def c1xOut : RouteOut := c1xPf.route c1xArgs

/-- The routed path node at grid cell (1,1): third entry of the returned
path. -/
def c1xN : AStarNode := c1xOut.path_nodes.getD 2 default

/-- C1 is false as stated: on a 3x2 grid with net-1 pads at (0,0) and
(2,0) and a net-2 cell at (1,0), routing net 1 succeeds through the
interior path node (1,1), yet the cell (1,0) — within Chebyshev radius
`trace_half_width_cells` = 1 of it on the same layer — is blocked by
foreign net 2 and is not a start/end pad. The expansion only runs the
trace-footprint check when the target cell itself is blocked
(pathfinder.cpp:277-293), so clearance to neighbouring foreign nets is
not a hard constraint. -/
theorem C1_clearance_counterexample :
    c1xOut.result.success = true ∧
    c1xN ∈ c1xOut.path_nodes ∧
    c1xN.via_from_parent = false ∧
    c1xN.x = 1 ∧ c1xN.y = 1 ∧ c1xN.layer = 0 ∧
    ¬(c1xN.x = (c1xPf.grid.world_to_grid c1xArgs.start_x c1xArgs.start_y).1 ∧
      c1xN.y = (c1xPf.grid.world_to_grid c1xArgs.start_x c1xArgs.start_y).2) ∧
    ¬(c1xN.x = (c1xPf.grid.world_to_grid c1xArgs.end_x c1xArgs.end_y).1 ∧
      c1xN.y = (c1xPf.grid.world_to_grid c1xArgs.end_x c1xArgs.end_y).2) ∧
    |(0 : Int)| ≤ c1xPf.trace_half_width_cells ∧
    |(-1 : Int)| ≤ c1xPf.trace_half_width_cells ∧
    c1xPf.grid.is_valid (c1xN.x + 0) (c1xN.y + -1) c1xN.layer = true ∧
    (c1xPf.grid.cellAt (c1xN.x + 0) (c1xN.y + -1) c1xN.layer).blocked = true ∧
    ¬(c1xPf.grid.cellAt (c1xN.x + 0) (c1xN.y + -1) c1xN.layer).net = c1xArgs.net ∧
    ¬((c1xN.x + 0) = (c1xPf.grid.world_to_grid c1xArgs.start_x c1xArgs.start_y).1 ∧
      (c1xN.y + -1) = (c1xPf.grid.world_to_grid c1xArgs.start_x c1xArgs.start_y).2) ∧
    ¬((c1xN.x + 0) = (c1xPf.grid.world_to_grid c1xArgs.end_x c1xArgs.end_y).1 ∧
      (c1xN.y + -1) = (c1xPf.grid.world_to_grid c1xArgs.end_x c1xArgs.end_y).2) := by
  with_unfolding_all decide

/-- C1 (amended): in non-negotiated mode, when a returned path node that
was reached by a 2-D step, is not a start/end position, and sits on a
blocked cell, its whole trace footprint (Chebyshev radius
`trace_half_width_cells`) is in bounds and every footprint cell is free
or a non-obstacle cell of the routed net — exactly the guarantee the
`is_trace_blocked` guard yields in the one branch that runs it. -/
theorem C1_clearance_amended (pf : Pathfinder) (args : RouteArgs)
    (hneg : args.negotiated_mode = false) (n : AStarNode)
    (hn : n ∈ (pf.route args).path_nodes)
    (hvia : n.via_from_parent = false)
    (hns : ¬(n.x = (pf.grid.world_to_grid args.start_x args.start_y).1 ∧
      n.y = (pf.grid.world_to_grid args.start_x args.start_y).2 ∧
      n.layer ∈ validStartLayers args))
    (hne : ¬(n.x = (pf.grid.world_to_grid args.end_x args.end_y).1 ∧
      n.y = (pf.grid.world_to_grid args.end_x args.end_y).2 ∧
      n.layer ∈ validEndLayers args))
    (hb : (pf.grid.cellAt n.x n.y n.layer).blocked = true) :
    ∀ ddx ddy : Int, |ddx| ≤ pf.trace_half_width_cells →
      |ddy| ≤ pf.trace_half_width_cells →
      pf.grid.is_valid (n.x + ddx) (n.y + ddy) n.layer = true ∧
      ((pf.grid.cellAt (n.x + ddx) (n.y + ddy) n.layer).blocked = false ∨
        ((pf.grid.cellAt (n.x + ddx) (n.y + ddy) n.layer).is_obstacle = false ∧
          (pf.grid.cellAt (n.x + ddx) (n.y + ddy) n.layer).net = args.net)) := by
  have hsub := route_path_nodes_sub pf args n hn
  have hsafe := ((route_closed_inv pf args hneg).1 n hsub).1
  exact trace_clear_of_not_blocked pf n.x n.y n.layer args.net (hsafe hvia hns hne hb)

def c1wGrid : Grid3D := (Grid3D.new 3 3 1 1 0 0).mark_blocked 1 1 0 1 false

def c1wRules : DesignRules :=
  { trace_width := 1, trace_clearance := 0, grid_resolution := 1 }

def c1wPf : Pathfinder := Pathfinder.new c1wGrid c1wRules false

def c1wArgs : RouteArgs :=
  { start_x := 0, start_y := 1, start_layer := 0,
    end_x := 2, end_y := 1, end_layer := 0, net := 1 }

def c1wOut : RouteOut := c1wPf.route c1wArgs

/-- The interior path node at (1,1) of the c1w run: second entry of the
returned path. -/
def c1wN : AStarNode := c1wOut.path_nodes.getD 1 default

/-- Witness for C1 (amended): routing net 1 across a same-net blocked
middle cell of a 3x3 grid, the interior blocked path node (1,1)
satisfies the footprint guarantee at offset (0,0). -/
theorem C1_clearance_amended_witness :
    c1wArgs.negotiated_mode = false ∧
    c1wN ∈ (c1wPf.route c1wArgs).path_nodes ∧
    (c1wPf.grid.cellAt c1wN.x c1wN.y c1wN.layer).blocked = true ∧
    (c1wPf.grid.is_valid (c1wN.x + 0) (c1wN.y + 0) c1wN.layer = true ∧
      ((c1wPf.grid.cellAt (c1wN.x + 0) (c1wN.y + 0) c1wN.layer).blocked = false ∨
        ((c1wPf.grid.cellAt (c1wN.x + 0) (c1wN.y + 0) c1wN.layer).is_obstacle = false ∧
          (c1wPf.grid.cellAt (c1wN.x + 0) (c1wN.y + 0) c1wN.layer).net =
            c1wArgs.net))) :=
  ⟨rfl, by with_unfolding_all decide, by with_unfolding_all decide,
   C1_clearance_amended c1wPf c1wArgs rfl c1wN (by with_unfolding_all decide)
     (by with_unfolding_all decide) (by with_unfolding_all decide)
     (by with_unfolding_all decide) (by with_unfolding_all decide)
     0 0 (by with_unfolding_all decide) (by with_unfolding_all decide)⟩

end Router

namespace Router

def c2xGrid : Grid3D := Grid3D.new 3 3 2 1 0 0

def c2xRules : DesignRules :=
  { trace_width := 1, trace_clearance := 0, grid_resolution := 1,
    cost_straight := 2, cost_turn := 0, cost_via := 10 }

def c2xPf : Pathfinder := Pathfinder.new c2xGrid c2xRules false

def c2xArgs : RouteArgs :=
  { start_x := 0, start_y := 1, start_layer := 0,
    end_x := 2, end_y := 1, end_layer := 0, net := 1, end_layers := [1, 0] }

def c2xOut : RouteOut := c2xPf.route c2xArgs

/-- The goal node the c2x run reports. -/
def c2xN : AStarNode := c2xOut.goal_node.getD default

/-- C2 is false as stated: on an empty 3x3x2 grid with `cost_straight = 2`,
`cost_turn = 0`, `cost_via = 10`, `weight = 1` and `end_layers = [1, 0]`,
the route succeeds with goal g-score 14 (two steps plus a via, ending on
layer 1), yet the legal path of two straight steps on layer 0 reaches the
goal cell on valid end layer 0 at cost 4 < 14. The heuristic multiplies
its via term by `cost_straight` and always aims at `valid_end_layers[0]`
(pathfinder.cpp:170-174, 219/322/356), so it is inadmissible and the
returned g-score can exceed the legal minimum. -/
theorem C2_optimality_counterexample :
    c2xOut.result.success = true ∧
    c2xOut.goal_node = some c2xN ∧
    c2xN.g_score = ((14 : ℚ) : WithTop ℚ) ∧
    (0 : Int) ∈ validStartLayers c2xArgs ∧
    LegalFrom c2xPf c2xArgs.net
      (c2xPf.grid.world_to_grid c2xArgs.start_x c2xArgs.start_y).1
      (c2xPf.grid.world_to_grid c2xArgs.start_x c2xArgs.start_y).2
      (c2xPf.grid.world_to_grid c2xArgs.end_x c2xArgs.end_y).1
      (c2xPf.grid.world_to_grid c2xArgs.end_x c2xArgs.end_y).2
      (validStartLayers c2xArgs) (validEndLayers c2xArgs)
      (startState (c2xPf.grid.world_to_grid c2xArgs.start_x c2xArgs.start_y).1
        (c2xPf.grid.world_to_grid c2xArgs.start_x c2xArgs.start_y).2 0)
      [Move.step ⟨1, 0, 0, 1⟩, Move.step ⟨1, 0, 0, 1⟩] ∧
    (pathRun c2xPf
      (startState (c2xPf.grid.world_to_grid c2xArgs.start_x c2xArgs.start_y).1
        (c2xPf.grid.world_to_grid c2xArgs.start_x c2xArgs.start_y).2 0)
      [Move.step ⟨1, 0, 0, 1⟩, Move.step ⟨1, 0, 0, 1⟩]).x =
      (c2xPf.grid.world_to_grid c2xArgs.end_x c2xArgs.end_y).1 ∧
    (pathRun c2xPf
      (startState (c2xPf.grid.world_to_grid c2xArgs.start_x c2xArgs.start_y).1
        (c2xPf.grid.world_to_grid c2xArgs.start_x c2xArgs.start_y).2 0)
      [Move.step ⟨1, 0, 0, 1⟩, Move.step ⟨1, 0, 0, 1⟩]).y =
      (c2xPf.grid.world_to_grid c2xArgs.end_x c2xArgs.end_y).2 ∧
    (pathRun c2xPf
      (startState (c2xPf.grid.world_to_grid c2xArgs.start_x c2xArgs.start_y).1
        (c2xPf.grid.world_to_grid c2xArgs.start_x c2xArgs.start_y).2 0)
      [Move.step ⟨1, 0, 0, 1⟩, Move.step ⟨1, 0, 0, 1⟩]).layer ∈
      validEndLayers c2xArgs ∧
    (pathRun c2xPf
      (startState (c2xPf.grid.world_to_grid c2xArgs.start_x c2xArgs.start_y).1
        (c2xPf.grid.world_to_grid c2xArgs.start_x c2xArgs.start_y).2 0)
      [Move.step ⟨1, 0, 0, 1⟩, Move.step ⟨1, 0, 0, 1⟩]).cost = 4 ∧
    (4 : ℚ) < 14 := by
  with_unfolding_all decide

/-- C2 (amended, path soundness): in non-negotiated mode, the goal node a
successful route reports sits at the goal cell on a valid end layer and
its g-score is the exact accumulated cost (step costs, turn penalties,
congestion penalties and via costs) of some legal path from a valid start
layer to that node. -/
theorem C2_soundness_amended (pf : Pathfinder) (args : RouteArgs)
    (hneg : args.negotiated_mode = false) (nd : AStarNode)
    (hgoal : (pf.route args).goal_node = some nd) :
    nd.x = (pf.grid.world_to_grid args.end_x args.end_y).1 ∧
    nd.y = (pf.grid.world_to_grid args.end_x args.end_y).2 ∧
    nd.layer ∈ validEndLayers args ∧
    ∃ (sl : Int) (moves : List Move),
      sl ∈ validStartLayers args ∧
      LegalFrom pf args.net
        (pf.grid.world_to_grid args.start_x args.start_y).1
        (pf.grid.world_to_grid args.start_x args.start_y).2
        (pf.grid.world_to_grid args.end_x args.end_y).1
        (pf.grid.world_to_grid args.end_x args.end_y).2
        (validStartLayers args) (validEndLayers args)
        (startState (pf.grid.world_to_grid args.start_x args.start_y).1
          (pf.grid.world_to_grid args.start_x args.start_y).2 sl) moves ∧
      (pathRun pf (startState (pf.grid.world_to_grid args.start_x args.start_y).1
        (pf.grid.world_to_grid args.start_x args.start_y).2 sl) moves).x = nd.x ∧
      (pathRun pf (startState (pf.grid.world_to_grid args.start_x args.start_y).1
        (pf.grid.world_to_grid args.start_x args.start_y).2 sl) moves).y = nd.y ∧
      (pathRun pf (startState (pf.grid.world_to_grid args.start_x args.start_y).1
        (pf.grid.world_to_grid args.start_x args.start_y).2 sl) moves).layer =
        nd.layer ∧
      nd.g_score =
        (((pathRun pf (startState (pf.grid.world_to_grid args.start_x args.start_y).1
          (pf.grid.world_to_grid args.start_x args.start_y).2 sl) moves).cost : ℚ) :
          WithTop ℚ) := by
  obtain ⟨hreal, hx, hy, hl⟩ := (route_closed_inv pf args hneg).2 nd hgoal
  obtain ⟨sl, moves, h1, h2, h3, h4, h5, _, _, h8⟩ := hreal
  exact ⟨hx, hy, hl, sl, moves, h1, h2, h3, h4, h5, h8⟩

/-- Witness for C2 (amended): the c2x run reports a goal node, and the
amended theorem applies to it. -/
theorem C2_soundness_amended_witness :
    c2xArgs.negotiated_mode = false ∧
    (c2xPf.route c2xArgs).goal_node = some c2xN ∧
    (c2xN.x = (c2xPf.grid.world_to_grid c2xArgs.end_x c2xArgs.end_y).1 ∧
     c2xN.y = (c2xPf.grid.world_to_grid c2xArgs.end_x c2xArgs.end_y).2 ∧
     c2xN.layer ∈ validEndLayers c2xArgs ∧
     ∃ (sl : Int) (moves : List Move),
       sl ∈ validStartLayers c2xArgs ∧
       LegalFrom c2xPf c2xArgs.net
         (c2xPf.grid.world_to_grid c2xArgs.start_x c2xArgs.start_y).1
         (c2xPf.grid.world_to_grid c2xArgs.start_x c2xArgs.start_y).2
         (c2xPf.grid.world_to_grid c2xArgs.end_x c2xArgs.end_y).1
         (c2xPf.grid.world_to_grid c2xArgs.end_x c2xArgs.end_y).2
         (validStartLayers c2xArgs) (validEndLayers c2xArgs)
         (startState (c2xPf.grid.world_to_grid c2xArgs.start_x c2xArgs.start_y).1
           (c2xPf.grid.world_to_grid c2xArgs.start_x c2xArgs.start_y).2 sl) moves ∧
       (pathRun c2xPf
         (startState (c2xPf.grid.world_to_grid c2xArgs.start_x c2xArgs.start_y).1
           (c2xPf.grid.world_to_grid c2xArgs.start_x c2xArgs.start_y).2 sl)
         moves).x = c2xN.x ∧
       (pathRun c2xPf
         (startState (c2xPf.grid.world_to_grid c2xArgs.start_x c2xArgs.start_y).1
           (c2xPf.grid.world_to_grid c2xArgs.start_x c2xArgs.start_y).2 sl)
         moves).y = c2xN.y ∧
       (pathRun c2xPf
         (startState (c2xPf.grid.world_to_grid c2xArgs.start_x c2xArgs.start_y).1
           (c2xPf.grid.world_to_grid c2xArgs.start_x c2xArgs.start_y).2 sl)
         moves).layer = c2xN.layer ∧
       c2xN.g_score =
         (((pathRun c2xPf
           (startState (c2xPf.grid.world_to_grid c2xArgs.start_x c2xArgs.start_y).1
             (c2xPf.grid.world_to_grid c2xArgs.start_x c2xArgs.start_y).2 sl)
           moves).cost : ℚ) : WithTop ℚ)) :=
  ⟨rfl, by with_unfolding_all decide,
   C2_soundness_amended c2xPf c2xArgs rfl c2xN (by with_unfolding_all decide)⟩

end Router
